import Mathlib

/-!
Shallow embedding of the `proven_stake` Solana program
(src/proven-solana-program/programs/proven-stake/src/lib.rs).

Modelling conventions:
* `u32` / `u64` fields are `Nat`; Rust's unchecked `+`, `*` on them (the
  release-build semantics of the plain operators at lib.rs lines 206, 265,
  340, 343, 385, 390, 397) is modelled as wrapping, i.e. `% 2^32` / `% 2^64`;
  Rust's `checked_add` / `checked_sub` (lines 144, 207, 462, 466, 501, 505,
  704) is modelled as an explicit bound test that returns the
  `MathOverflow` error.
* timestamps are `Int` (`i64`); the clock is passed to each instruction as
  an explicit `now` argument.
* fallible instructions return `Except ProvenError PState`; an `error`
  result models the transaction aborting with no state change (Anchor
  rolls back every partial write on error).
* the SPL token ledger is external to the program: a transfer into the
  escrow vault fails if the vault's `u64` balance would overflow, and a
  transfer out fails if the vault balance is insufficient; both failure
  modes are modelled by the `TokenTransferFailed` error.  Only the vault
  side of each transfer is tracked.
* Anchor resolves the accounts named by an instruction before the handler
  body runs: a `#[account(init)]` participant that already exists aborts
  with `AccountInUse`, and a referenced participant account that does not
  exist aborts with `AccountNotFound`.
* account pubkeys are modelled as `Nat` identifiers; the `challenge_id`
  string is kept as a `String`.
* for each instruction, the state written back on success is factored out
  as a named `..._apply` function placed next to the instruction; the
  instruction itself is the faithful chain of the source's checks.
-/

namespace Proven

/-- `u32::MAX + 1`. -/
def U32M : Nat := 2 ^ 32

/-- `u64::MAX + 1`. -/
def U64M : Nat := 2 ^ 64

/-- Win threshold: 80% of days (8000 basis points) — `WIN_THRESHOLD_BPS`. -/
def WIN_THRESHOLD_BPS : Nat := 8000

/-- `required_days` (lib.rs lines 16–23): `(total_days as u64)
`.saturating_mul(threshold_bps).saturating_add(9999)`, floor-divided by
10000, then cast back to `u32` (a truncating cast, modelled by `% 2^32`). -/
def required_days (total_days threshold_bps : Nat) : Nat :=
  let numerator := min (total_days * threshold_bps) (U64M - 1)
  let numerator := min (numerator + 9999) (U64M - 1)
  (numerator / 10000) % U32M

/-- Spec-side definition of the required-days threshold, written from the
spec's words: `requiredDays = ceil(total_days × threshold_bps / 10000)`,
with the ceiling of a natural division `a / b` rendered as
`(a + b - 1) / b`.  Used to compare `required_days` against the spec. -/
def specRequiredDays (total_days threshold_bps : Nat) : Nat :=
  (total_days * threshold_bps + 10000 - 1) / 10000

/-- `ChallengeStatus` enum (lib.rs lines 1355–1367). -/
inductive ChallengeStatus
  | Created
  | Started
  | Ended
  | Settled
  | Cancelled
deriving DecidableEq, Repr

/-- `ProvenError` (lib.rs lines 1499–1573), plus three codes that model the
external environment: `TokenTransferFailed` for a failing SPL-token CPI
and `AccountInUse` / `AccountNotFound` for Anchor account resolution. -/
inductive ProvenError
  | InvalidAmount
  | InvalidDuration
  | InvalidStartTime
  | InvalidDayLength
  | ChallengeIdEmpty
  | ChallengeIdTooLong
  | ChallengeIdMismatch
  | InvalidChallengeStatus
  | ChallengeStarted
  | ChallengeNotStarted
  | ChallengeEnded
  | NotJoined
  | InvalidOracle
  | ChallengeNotEnded
  | AlreadySettled
  | SettlementIncomplete
  | ChallengeNotSettled
  | NotWinner
  | PayoutAlreadyClaimed
  | Unauthorized
  | NotCancelled
  | AlreadyClaimed
  | NotSettled
  | MathOverflow
  | ChallengeStillActive
  | PendingWinnerPayouts
  | AllPayoutsClaimed
  | PendingRemainderDistribution
  | ParticipantsRemaining
  | PayoutNotClaimed
  | RefundNotClaimed
  | HasWinners
  | NoForfeitedStakes
  | ForfeitedStakesUnclaimed
  | MaxProofsReached
  | EscrowNotEmpty
  | TokenTransferFailed
  | AccountInUse
  | AccountNotFound
deriving DecidableEq, Repr

/-- `EscrowFactory` account (lib.rs lines 1231–1245). -/
structure EscrowFactory where
  authority : Nat
  treasury : Nat
  oracle : Nat
  challenge_count : Nat
  day_length_seconds : Int
deriving DecidableEq, Repr

/-- `ChallengeEscrow` account (lib.rs lines 1252–1296).  The `factory`,
`token_mint` and `escrow_vault` pubkey fields are omitted: they are fixed
at creation and only used for PDA derivation / account routing, which the
model resolves by construction. -/
structure ChallengeEscrow where
  challenge_id : String
  creator : Nat
  stake_amount : Nat
  total_days : Nat
  threshold_bps : Nat
  status : ChallengeStatus
  start_ts : Int
  end_ts : Int
  participant_count : Nat
  active_participants : Nat
  winner_count : Nat
  loser_count : Nat
  bonus_per_winner : Nat
  forfeited_amount : Nat
  remainder : Nat
  payouts_claimed_count : Nat
  remainder_claimed : Nat
deriving DecidableEq, Repr

/-- `Participant` account (lib.rs lines 1327–1348); the `challenge` pubkey
field is implicit (participants are stored inside their challenge state). -/
structure Participant where
  user : Nat
  joined : Bool
  stake_deposited : Nat
  proof_days : Nat
  is_winner : Bool
  is_settled : Bool
  payout_claimed : Bool
  refund_claimed : Bool
deriving DecidableEq, Repr

/-- The on-chain state owned by one challenge: the `ChallengeEscrow`
account, the participant accounts keyed by user pubkey, and the escrow
vault's token balance. -/
structure PState where
  challenge : ChallengeEscrow
  parts : List (Nat × Participant)
  vault : Nat
deriving DecidableEq, Repr

/-- Look up the participant account of `u` (Anchor PDA resolution). -/
def findPart (u : Nat) : List (Nat × Participant) → Option Participant
  | [] => none
  | e :: t => if e.1 = u then some e.2 else findPart u t

/-- Rewrite the participant account of `u` in place. -/
def setPart (u : Nat) (f : Participant → Participant) :
    List (Nat × Participant) → List (Nat × Participant)
  | [] => []
  | e :: t => (if e.1 = u then (e.1, f e.2) else e) :: setPart u f t

/-- Delete the participant account of `u` (account closed). -/
def removePart (u : Nat) (l : List (Nat × Participant)) :
    List (Nat × Participant) :=
  l.filter (fun e => !(e.1 == u))

/-- The fresh factory and challenge state written by a successful
`create_challenge` (lib.rs lines 120–147). -/
def create_apply (cid : String) (stake_amount total_days : Nat)
    (start_ts : Int) (creator : Nat) (f : EscrowFactory) :
    EscrowFactory × PState :=
  ({ f with challenge_count := f.challenge_count + 1 },
   { challenge :=
       { challenge_id := cid
         creator := creator
         stake_amount := stake_amount
         total_days := total_days
         threshold_bps := WIN_THRESHOLD_BPS
         status := .Created
         start_ts := start_ts
         end_ts := start_ts + (total_days : Int) * f.day_length_seconds
         participant_count := 0
         active_participants := 0
         winner_count := 0
         loser_count := 0
         bonus_per_winner := 0
         forfeited_amount := 0
         remainder := 0
         payouts_claimed_count := 0
         remainder_claimed := 0 }
     parts := []
     vault := 0 })

/-- `create_challenge` (lib.rs lines 92–160).  `end_ts` is
`start_ts + total_days * day_length_seconds` in `i64` arithmetic, modelled
exactly over `Int`. -/
def create_challenge (now : Int) (cid : String) (stake_amount total_days : Nat)
    (start_ts : Int) (creator : Nat) (f : EscrowFactory) :
    Except ProvenError (EscrowFactory × PState) :=
  if 0 < stake_amount then
    if 0 < total_days then
      if now < start_ts then
        if cid.utf8ByteSize ≠ 0 then
          if cid.utf8ByteSize ≤ 32 then
            if 0 < f.day_length_seconds then
              if f.challenge_count + 1 < U64M then
                .ok (create_apply cid stake_amount total_days start_ts creator f)
              else .error .MathOverflow
            else .error .InvalidDayLength
          else .error .ChallengeIdTooLong
        else .error .ChallengeIdEmpty
      else .error .InvalidStartTime
    else .error .InvalidDuration
  else .error .InvalidAmount

/-- The state written by a successful `join_challenge` (lib.rs lines
183–210): stake moved into the vault, fresh participant record, wrapping
`participant_count` increment, checked `active_participants` increment. -/
def join_apply (user : Nat) (s : PState) : PState :=
  { challenge :=
      { s.challenge with
        participant_count := (s.challenge.participant_count + 1) % U32M
        active_participants := s.challenge.active_participants + 1 }
    parts := (user,
      { user := user
        joined := true
        stake_deposited := s.challenge.stake_amount
        proof_days := 0
        is_winner := false
        is_settled := false
        payout_claimed := false
        refund_claimed := false }) :: s.parts
    vault := s.vault + s.challenge.stake_amount }

/-- `join_challenge` (lib.rs lines 164–220).  The participant PDA is
`init`: joining twice aborts at account resolution. -/
def join_challenge (cid : String) (user : Nat) (now : Int) (s : PState) :
    Except ProvenError PState :=
  match findPart user s.parts with
  | some _ => .error .AccountInUse
  | none =>
    if s.challenge.challenge_id = cid then
      if s.challenge.status = .Created then
        if now < s.challenge.start_ts then
          if s.vault + s.challenge.stake_amount < U64M then
            if s.challenge.active_participants + 1 < U32M then
              .ok (join_apply user s)
            else .error .MathOverflow
          else .error .TokenTransferFailed
        else .error .ChallengeStarted
      else .error .InvalidChallengeStatus
    else .error .ChallengeIdMismatch

/-- The state written by a successful `record_proof` (lib.rs lines
259–265): auto-start on the first proof, wrapping `proof_days` increment. -/
def record_proof_apply (user : Nat) (s : PState) : PState :=
  { s with
    challenge :=
      { s.challenge with
        status := if s.challenge.status = .Created then .Started
                  else s.challenge.status }
    parts := setPart user
      (fun q => { q with proof_days := (q.proof_days + 1) % U32M }) s.parts }

/-- `record_proof` (lib.rs lines 224–275). -/
def record_proof (fac : EscrowFactory) (cid : String) (user oracle : Nat)
    (now : Int) (s : PState) : Except ProvenError PState :=
  match findPart user s.parts with
  | none => .error .AccountNotFound
  | some p =>
    if s.challenge.challenge_id = cid then
      if s.challenge.status = .Created ∨ s.challenge.status = .Started then
        if s.challenge.start_ts ≤ now then
          if now ≤ s.challenge.end_ts then
            if p.joined then
              if oracle = fac.oracle then
                if p.proof_days < s.challenge.total_days then
                  .ok (record_proof_apply user s)
                else .error .MaxProofsReached
              else .error .InvalidOracle
            else .error .NotJoined
          else .error .ChallengeEnded
        else .error .ChallengeNotStarted
      else .error .InvalidChallengeStatus
    else .error .ChallengeIdMismatch

/-- The state written by a successful `settle_challenge` (lib.rs line 301). -/
def settle_challenge_apply (s : PState) : PState :=
  { s with challenge := { s.challenge with status := .Ended } }

/-- `settle_challenge` (lib.rs lines 278–312): oracle marks the challenge
`Ended` strictly after `end_ts`. -/
def settle_challenge (fac : EscrowFactory) (cid : String) (oracle : Nat)
    (now : Int) (s : PState) : Except ProvenError PState :=
  if s.challenge.challenge_id = cid then
    if s.challenge.status = .Created ∨ s.challenge.status = .Started then
      if s.challenge.end_ts < now then
        if oracle = fac.oracle then
          .ok (settle_challenge_apply s)
        else .error .InvalidOracle
      else .error .ChallengeNotEnded
    else .error .InvalidChallengeStatus
  else .error .ChallengeIdMismatch

/-- Winner outcome of `settle_participant` (lib.rs lines 337–346):
wrapping `winner_count` increment, `is_winner` and `is_settled` set. -/
def settle_participant_win (user : Nat) (s : PState) : PState :=
  { s with
    challenge :=
      { s.challenge with
        winner_count := (s.challenge.winner_count + 1) % U32M }
    parts := setPart user
      (fun q => { q with is_winner := true, is_settled := true }) s.parts }

/-- Loser outcome of `settle_participant` (lib.rs lines 341–346):
wrapping `loser_count` increment, `is_settled` set. -/
def settle_participant_lose (user : Nat) (s : PState) : PState :=
  { s with
    challenge :=
      { s.challenge with
        loser_count := (s.challenge.loser_count + 1) % U32M }
    parts := setPart user (fun q => { q with is_settled := true }) s.parts }

/-- `settle_participant` (lib.rs lines 315–357). -/
def settle_participant (fac : EscrowFactory) (cid : String) (user oracle : Nat)
    (s : PState) : Except ProvenError PState :=
  match findPart user s.parts with
  | none => .error .AccountNotFound
  | some p =>
    if s.challenge.challenge_id = cid then
      if s.challenge.status = .Ended then
        if oracle = fac.oracle then
          if p.is_settled then .error .AlreadySettled
          else
            if required_days s.challenge.total_days s.challenge.threshold_bps
                ≤ p.proof_days then
              .ok (settle_participant_win user s)
            else
              .ok (settle_participant_lose user s)
        else .error .InvalidOracle
      else .error .InvalidChallengeStatus
    else .error .ChallengeIdMismatch

/-- No-winner outcome of `finalize_settlement` (lib.rs lines 395–406):
the whole pool `participant_count * stake_amount` (wrapping `u64`
multiply) is marked forfeited. -/
def finalize_no_winner (s : PState) : PState :=
  { s with
    challenge :=
      { s.challenge with
        payouts_claimed_count := 0
        remainder_claimed := 0
        forfeited_amount :=
          (s.challenge.participant_count * s.challenge.stake_amount) % U64M
        bonus_per_winner := 0
        remainder := 0
        status := .Settled } }

/-- No-loser outcome of `finalize_settlement` (lib.rs lines 407–411). -/
def finalize_no_loser (s : PState) : PState :=
  { s with
    challenge :=
      { s.challenge with
        payouts_claimed_count := 0
        remainder_claimed := 0
        bonus_per_winner := 0
        remainder := 0
        forfeited_amount := 0
        status := .Settled } }

/-- Mixed outcome of `finalize_settlement` (lib.rs lines 412–417):
`losers_stakes = loser_count * stake_amount` (wrapping `u64` multiply),
split by integer division among the winners. -/
def finalize_mixed (s : PState) : PState :=
  { s with
    challenge :=
      { s.challenge with
        payouts_claimed_count := 0
        remainder_claimed := 0
        bonus_per_winner :=
          ((s.challenge.loser_count * s.challenge.stake_amount) % U64M)
            / s.challenge.winner_count
        remainder :=
          ((s.challenge.loser_count * s.challenge.stake_amount) % U64M)
            % s.challenge.winner_count
        forfeited_amount := 0
        status := .Settled } }

/-- `finalize_settlement` (lib.rs lines 364–430).  The completeness check
`winner_count + loser_count == participant_count` is unchecked (wrapping)
`u32` addition. -/
def finalize_settlement (fac : EscrowFactory) (cid : String) (oracle : Nat)
    (s : PState) : Except ProvenError PState :=
  if s.challenge.challenge_id = cid then
    if s.challenge.status = .Ended then
      if oracle = fac.oracle then
        if (s.challenge.winner_count + s.challenge.loser_count) % U32M
            = s.challenge.participant_count then
          if s.challenge.winner_count = 0 then
            .ok (finalize_no_winner s)
          else if s.challenge.loser_count = 0 then
            .ok (finalize_no_loser s)
          else
            .ok (finalize_mixed s)
        else .error .SettlementIncomplete
      else .error .InvalidOracle
    else .error .InvalidChallengeStatus
  else .error .ChallengeIdMismatch

/-- The state written by a successful `claim_payout` (lib.rs lines
486–508): `stake_amount + bonus` leaves the vault, latch set, checked
counter updates. -/
def claim_payout_apply (user : Nat) (bonus dust : Nat) (s : PState) : PState :=
  { challenge :=
      { s.challenge with
        payouts_claimed_count := s.challenge.payouts_claimed_count + 1
        remainder_claimed := s.challenge.remainder_claimed + dust }
    parts := setPart user (fun q => { q with payout_claimed := true }) s.parts
    vault := s.vault - (s.challenge.stake_amount + bonus) }

/-- Tail of `claim_payout` once the bonus (base bonus plus dust unit) is
fixed: checked payout addition, token transfer out of the vault, checked
counter updates (lib.rs lines 466–508). -/
def claim_payout_finish (user : Nat) (bonus dust : Nat) (s : PState) :
    Except ProvenError PState :=
  if s.challenge.stake_amount + bonus < U64M then
    if s.challenge.stake_amount + bonus ≤ s.vault then
      if s.challenge.payouts_claimed_count + 1 < U32M then
        if s.challenge.remainder_claimed + dust < U64M then
          .ok (claim_payout_apply user bonus dust s)
        else .error .MathOverflow
      else .error .MathOverflow
    else .error .TokenTransferFailed
  else .error .MathOverflow

/-- `claim_payout` (lib.rs lines 433–519): winner claims
`stake_amount + bonus_per_winner`, plus one dust unit while
`remainder_claimed < remainder`. -/
def claim_payout (cid : String) (user : Nat) (s : PState) :
    Except ProvenError PState :=
  match findPart user s.parts with
  | none => .error .AccountNotFound
  | some p =>
    if s.challenge.challenge_id = cid then
      if s.challenge.status = .Settled then
        if p.is_settled then
          if p.is_winner then
            if p.payout_claimed then .error .PayoutAlreadyClaimed
            else
              if s.challenge.payouts_claimed_count < s.challenge.winner_count then
                if s.challenge.remainder_claimed < s.challenge.remainder then
                  if s.challenge.bonus_per_winner + 1 < U64M then
                    claim_payout_finish user (s.challenge.bonus_per_winner + 1) 1 s
                  else .error .MathOverflow
                else claim_payout_finish user s.challenge.bonus_per_winner 0 s
              else .error .AllPayoutsClaimed
          else .error .NotWinner
        else .error .NotSettled
      else .error .ChallengeNotSettled
    else .error .ChallengeIdMismatch

/-- The state written by a successful `claim_forfeited_stakes` (lib.rs
lines 564–576): the forfeited pool leaves the vault and is zeroed. -/
def claim_forfeited_apply (s : PState) : PState :=
  { s with
    challenge := { s.challenge with forfeited_amount := 0 }
    vault := s.vault - s.challenge.forfeited_amount }

/-- `claim_forfeited_stakes` (lib.rs lines 522–585). -/
def claim_forfeited_stakes (fac : EscrowFactory) (cid : String)
    (treasury : Nat) (s : PState) : Except ProvenError PState :=
  if s.challenge.challenge_id = cid then
    if s.challenge.status = .Settled then
      if s.challenge.winner_count = 0 then
        if 0 < s.challenge.forfeited_amount then
          if treasury = fac.treasury then
            if s.challenge.forfeited_amount ≤ s.vault then
              .ok (claim_forfeited_apply s)
            else .error .TokenTransferFailed
          else .error .Unauthorized
        else .error .NoForfeitedStakes
      else .error .HasWinners
    else .error .ChallengeNotSettled
  else .error .ChallengeIdMismatch

/-- The state written by a successful `cancel_challenge` (lib.rs line 610). -/
def cancel_apply (s : PState) : PState :=
  { s with challenge := { s.challenge with status := .Cancelled } }

/-- `cancel_challenge` (lib.rs lines 588–619): creator cancels strictly
before `start_ts`, from `Created` only. -/
def cancel_challenge (cid : String) (creator : Nat) (now : Int) (s : PState) :
    Except ProvenError PState :=
  if s.challenge.challenge_id = cid then
    if creator = s.challenge.creator then
      if s.challenge.status = .Created then
        if now < s.challenge.start_ts then
          .ok (cancel_apply s)
        else .error .ChallengeStarted
      else .error .InvalidChallengeStatus
    else .error .Unauthorized
  else .error .ChallengeIdMismatch

/-- The state written by a successful `claim_refund` (lib.rs lines
650–660): `amount` (the claimant's `stake_deposited`) leaves the vault,
`refund_claimed` latch set. -/
def claim_refund_apply (user : Nat) (amount : Nat) (s : PState) : PState :=
  { s with
    parts := setPart user (fun q => { q with refund_claimed := true }) s.parts
    vault := s.vault - amount }

/-- `claim_refund` (lib.rs lines 622–669). -/
def claim_refund (cid : String) (user : Nat) (s : PState) :
    Except ProvenError PState :=
  match findPart user s.parts with
  | none => .error .AccountNotFound
  | some p =>
    if s.challenge.challenge_id = cid then
      if s.challenge.status = .Cancelled then
        if p.joined then
          if p.refund_claimed then .error .AlreadyClaimed
          else
            if p.stake_deposited ≤ s.vault then
              .ok (claim_refund_apply user p.stake_deposited s)
            else .error .TokenTransferFailed
        else .error .NotJoined
      else .error .NotCancelled
    else .error .ChallengeIdMismatch

/-- The state written by a successful `close_participant` (lib.rs lines
704–716): checked `active_participants` decrement, record deleted. -/
def close_participant_apply (user : Nat) (s : PState) : PState :=
  { s with
    challenge :=
      { s.challenge with
        active_participants := s.challenge.active_participants - 1 }
    parts := removePart user s.parts }

/-- Tail of `close_participant`: the `checked_sub` on
`active_participants` (lib.rs lines 704–707). -/
def close_participant_finish (user : Nat) (s : PState) :
    Except ProvenError PState :=
  if 0 < s.challenge.active_participants then
    .ok (close_participant_apply user s)
  else .error .MathOverflow

/-- `close_participant` (lib.rs lines 672–716): reclaim a participant
record once its terminal obligation is resolved. -/
def close_participant (cid : String) (authority destination user : Nat)
    (s : PState) : Except ProvenError PState :=
  match findPart user s.parts with
  | none => .error .AccountNotFound
  | some p =>
    if s.challenge.challenge_id = cid then
      if p.user = destination then
        if authority = p.user ∨ authority = s.challenge.creator then
          match s.challenge.status with
          | .Settled =>
            if p.is_settled then
              if p.is_winner then
                if p.payout_claimed then close_participant_finish user s
                else .error .PayoutNotClaimed
              else close_participant_finish user s
            else .error .NotSettled
          | .Cancelled =>
            if p.refund_claimed then close_participant_finish user s
            else .error .RefundNotClaimed
          | _ => .error .ChallengeStillActive
        else .error .Unauthorized
      else .error .Unauthorized
    else .error .ChallengeIdMismatch

/-- `close_escrow_vault` (lib.rs lines 719–791): the vault token account
may be closed only with a verified zero balance, in a terminal status with
all fund obligations drained.  The challenge state is unchanged. -/
def close_escrow_vault (cid : String) (creator : Nat) (s : PState) :
    Except ProvenError PState :=
  if s.challenge.challenge_id = cid then
    if s.challenge.creator = creator then
      match s.challenge.status with
      | .Settled =>
        if 0 < s.challenge.winner_count ∧
            s.challenge.payouts_claimed_count ≠ s.challenge.winner_count then
          .error .PendingWinnerPayouts
        else if s.challenge.winner_count = 0 ∧
            s.challenge.forfeited_amount ≠ 0 then
          .error .ForfeitedStakesUnclaimed
        else if s.vault = 0 then .ok s
        else .error .EscrowNotEmpty
      | .Cancelled =>
        if s.vault = 0 then .ok s
        else .error .EscrowNotEmpty
      | _ => .error .ChallengeStillActive
    else .error .Unauthorized
  else .error .ChallengeIdMismatch

/-- `close_challenge` (lib.rs lines 794–842): reclaim the challenge record;
requires a terminal status, fully drained obligations, and
`active_participants == 0` in *every* permitted status. -/
def close_challenge (cid : String) (creator : Nat) (s : PState) :
    Except ProvenError PState :=
  if s.challenge.challenge_id = cid then
    if s.challenge.creator = creator then
      match s.challenge.status with
      | .Settled =>
        if 0 < s.challenge.winner_count ∧
            s.challenge.payouts_claimed_count ≠ s.challenge.winner_count then
          .error .PendingWinnerPayouts
        else if 0 < s.challenge.winner_count ∧
            s.challenge.remainder_claimed ≠ s.challenge.remainder then
          .error .PendingRemainderDistribution
        else if s.challenge.winner_count = 0 ∧
            s.challenge.forfeited_amount ≠ 0 then
          .error .ForfeitedStakesUnclaimed
        else if s.challenge.active_participants = 0 then .ok s
        else .error .ParticipantsRemaining
      | .Cancelled =>
        if s.challenge.active_participants = 0 then .ok s
        else .error .ParticipantsRemaining
      | _ => .error .ChallengeStillActive
    else .error .Unauthorized
  else .error .ChallengeIdMismatch

/-! ### Participant-list lemmas -/

/-- Number of settled participant records. -/
def settledCount : List (Nat × Participant) → Nat
  | [] => 0
  | e :: t => (if e.2.is_settled then 1 else 0) + settledCount t

theorem findPart_eq_none {u : Nat} {l : List (Nat × Participant)}
    (h : findPart u l = none) : u ∉ l.map Prod.fst := by
  induction l with
  | nil => simp
  | cons e t ih =>
    unfold findPart at h
    split at h
    · simp_all
    · next hne =>
      simp only [List.map_cons, List.mem_cons]
      rintro (rfl | hm)
      · exact hne rfl
      · exact ih h hm

theorem keys_setPart (u : Nat) (f : Participant → Participant)
    (l : List (Nat × Participant)) :
    (setPart u f l).map Prod.fst = l.map Prod.fst := by
  induction l with
  | nil => rfl
  | cons e t ih =>
    unfold setPart
    split <;> simp_all

theorem length_setPart (u : Nat) (f : Participant → Participant)
    (l : List (Nat × Participant)) :
    (setPart u f l).length = l.length := by
  induction l with
  | nil => rfl
  | cons e t ih =>
    unfold setPart
    split <;> simp_all

theorem setPart_not_mem {u : Nat} {l : List (Nat × Participant)}
    (h : u ∉ l.map Prod.fst) (f : Participant → Participant) :
    setPart u f l = l := by
  induction l with
  | nil => rfl
  | cons e t ih =>
    simp only [List.map_cons, List.mem_cons] at h
    push_neg at h
    unfold setPart
    split
    · exact absurd ((by assumption : e.1 = u).symm) h.1
    · rw [ih h.2]

theorem settledCount_setPart_inv {f : Participant → Participant}
    (hf : ∀ p, (f p).is_settled = p.is_settled) (u : Nat)
    (l : List (Nat × Participant)) :
    settledCount (setPart u f l) = settledCount l := by
  induction l with
  | nil => rfl
  | cons e t ih =>
    unfold setPart settledCount
    split
    · simp only [hf]
      omega
    · omega

theorem settledCount_setPart_settle {u : Nat} {p : Participant}
    {f : Participant → Participant} {l : List (Nat × Participant)}
    (hnd : (l.map Prod.fst).Nodup) (hfind : findPart u l = some p)
    (hp : p.is_settled = false) (hf : (f p).is_settled = true) :
    settledCount (setPart u f l) = settledCount l + 1 := by
  induction l with
  | nil => simp [findPart] at hfind
  | cons e t ih =>
    simp only [List.map_cons, List.nodup_cons] at hnd
    unfold findPart at hfind
    unfold setPart
    split at hfind
    · next heq =>
      cases hfind
      rw [if_pos heq, setPart_not_mem (heq ▸ hnd.1) f]
      simp only [settledCount, hf, hp]
      simp
      try omega
    · next hne =>
      rw [if_neg hne]
      simp only [settledCount]
      have h2 := ih hnd.2 hfind
      omega

theorem settledCount_le_length (l : List (Nat × Participant)) :
    settledCount l ≤ l.length := by
  induction l with
  | nil => exact Nat.le_refl 0
  | cons e t ih =>
    unfold settledCount
    simp only [List.length_cons]
    split <;> omega

theorem settledCount_lt_length {u : Nat} {p : Participant}
    {l : List (Nat × Participant)}
    (hfind : findPart u l = some p) (hp : p.is_settled = false) :
    settledCount l < l.length := by
  induction l with
  | nil => simp [findPart] at hfind
  | cons e t ih =>
    unfold findPart at hfind
    unfold settledCount
    simp only [List.length_cons]
    split at hfind
    · cases hfind
      have hle : settledCount t ≤ t.length := settledCount_le_length t
      simp only [hp]
      simp
      omega
    · have h2 := ih hfind
      split <;> omega

theorem findPart_setPart (u : Nat) (f : Participant → Participant)
    (l : List (Nat × Participant)) :
    findPart u (setPart u f l) = (findPart u l).map f := by
  induction l with
  | nil => rfl
  | cons e t ih =>
    by_cases he : e.1 = u
    · simp [setPart, findPart, he]
    · simp [setPart, findPart, he, ih]

theorem findPart_setPart_ne {v u : Nat} (hne : v ≠ u)
    (f : Participant → Participant) (l : List (Nat × Participant)) :
    findPart v (setPart u f l) = findPart v l := by
  induction l with
  | nil => rfl
  | cons e t ih =>
    have huv : ¬ (u = v) := fun hc => hne hc.symm
    by_cases he : e.1 = u
    · simp [setPart, findPart, he, huv, ih]
    · by_cases hv : e.1 = v
      · simp [setPart, findPart, he, hv, hne, huv]
      · simp [setPart, findPart, he, hv, hne, huv, ih]

theorem keys_removePart_sublist (u : Nat) (l : List (Nat × Participant)) :
    ((removePart u l).map Prod.fst).Sublist (l.map Prod.fst) :=
  (List.filter_sublist l).map Prod.fst

/-! ### Success inversion lemmas, one per instruction -/

theorem create_challenge_ok {now : Int} {cid : String}
    {stake_amount total_days : Nat} {start_ts : Int} {creator : Nat}
    {f f' : EscrowFactory} {s : PState}
    (h : create_challenge now cid stake_amount total_days start_ts creator f
          = .ok (f', s)) :
    0 < stake_amount ∧ 0 < total_days ∧ now < start_ts ∧
    0 < f.day_length_seconds ∧ f.challenge_count + 1 < U64M ∧
    (f', s) = create_apply cid stake_amount total_days start_ts creator f := by
  unfold create_challenge at h
  repeat' split at h
  all_goals try exact Except.noConfusion h
  injection h with h
  simp_all

theorem join_ok {cid : String} {user : Nat} {now : Int} {s s' : PState}
    (h : join_challenge cid user now s = .ok s') :
    findPart user s.parts = none ∧ s.challenge.challenge_id = cid ∧
    s.challenge.status = .Created ∧ now < s.challenge.start_ts ∧
    s.vault + s.challenge.stake_amount < U64M ∧
    s.challenge.active_participants + 1 < U32M ∧
    s' = join_apply user s := by
  unfold join_challenge at h
  repeat' split at h
  all_goals try exact Except.noConfusion h
  injection h with h
  simp_all

theorem record_proof_ok {fac : EscrowFactory} {cid : String} {user oracle : Nat}
    {now : Int} {s s' : PState}
    (h : record_proof fac cid user oracle now s = .ok s') :
    ∃ p, findPart user s.parts = some p ∧
      s.challenge.challenge_id = cid ∧
      (s.challenge.status = .Created ∨ s.challenge.status = .Started) ∧
      s.challenge.start_ts ≤ now ∧ now ≤ s.challenge.end_ts ∧
      p.joined = true ∧ oracle = fac.oracle ∧
      p.proof_days < s.challenge.total_days ∧
      s' = record_proof_apply user s := by
  unfold record_proof at h
  split at h
  next hfp => exact Except.noConfusion h
  next p hfp =>
    refine ⟨p, hfp, ?_⟩
    repeat' split at h
    all_goals try exact Except.noConfusion h
    injection h with h
    simp_all

theorem settle_challenge_ok {fac : EscrowFactory} {cid : String} {oracle : Nat}
    {now : Int} {s s' : PState}
    (h : settle_challenge fac cid oracle now s = .ok s') :
    s.challenge.challenge_id = cid ∧
    (s.challenge.status = .Created ∨ s.challenge.status = .Started) ∧
    s.challenge.end_ts < now ∧ oracle = fac.oracle ∧
    s' = settle_challenge_apply s := by
  unfold settle_challenge at h
  repeat' split at h
  all_goals try exact Except.noConfusion h
  injection h with h
  simp_all

theorem settle_participant_ok {fac : EscrowFactory} {cid : String}
    {user oracle : Nat} {s s' : PState}
    (h : settle_participant fac cid user oracle s = .ok s') :
    ∃ p, findPart user s.parts = some p ∧
      s.challenge.challenge_id = cid ∧ s.challenge.status = .Ended ∧
      oracle = fac.oracle ∧ p.is_settled = false ∧
      ((required_days s.challenge.total_days s.challenge.threshold_bps
          ≤ p.proof_days ∧ s' = settle_participant_win user s) ∨
       (p.proof_days < required_days s.challenge.total_days
          s.challenge.threshold_bps ∧ s' = settle_participant_lose user s)) := by
  unfold settle_participant at h
  split at h
  next hfp => exact Except.noConfusion h
  next p hfp =>
    refine ⟨p, hfp, ?_⟩
    repeat' split at h
    all_goals try exact Except.noConfusion h
    all_goals injection h with h
    · exact ⟨by assumption, by assumption, by assumption, by simp_all,
        Or.inl ⟨by assumption, h.symm⟩⟩
    · exact ⟨by assumption, by assumption, by assumption, by simp_all,
        Or.inr ⟨by omega, h.symm⟩⟩

theorem finalize_settlement_ok {fac : EscrowFactory} {cid : String}
    {oracle : Nat} {s s' : PState}
    (h : finalize_settlement fac cid oracle s = .ok s') :
    s.challenge.challenge_id = cid ∧ s.challenge.status = .Ended ∧
    oracle = fac.oracle ∧
    (s.challenge.winner_count + s.challenge.loser_count) % U32M
      = s.challenge.participant_count ∧
    ((s.challenge.winner_count = 0 ∧ s' = finalize_no_winner s) ∨
     (s.challenge.winner_count ≠ 0 ∧ s.challenge.loser_count = 0 ∧
       s' = finalize_no_loser s) ∨
     (s.challenge.winner_count ≠ 0 ∧ s.challenge.loser_count ≠ 0 ∧
       s' = finalize_mixed s)) := by
  unfold finalize_settlement at h
  repeat' split at h
  all_goals try exact Except.noConfusion h
  all_goals injection h with h
  · exact ⟨by assumption, by assumption, by assumption, by assumption,
      Or.inl ⟨by assumption, h.symm⟩⟩
  · exact ⟨by assumption, by assumption, by assumption, by assumption,
      Or.inr (Or.inl ⟨by assumption, by assumption, h.symm⟩)⟩
  · exact ⟨by assumption, by assumption, by assumption, by assumption,
      Or.inr (Or.inr ⟨by assumption, by assumption, h.symm⟩)⟩

theorem claim_payout_finish_ok {user bonus dust : Nat} {s s' : PState}
    (h : claim_payout_finish user bonus dust s = .ok s') :
    s.challenge.stake_amount + bonus < U64M ∧
    s.challenge.stake_amount + bonus ≤ s.vault ∧
    s.challenge.payouts_claimed_count + 1 < U32M ∧
    s.challenge.remainder_claimed + dust < U64M ∧
    s' = claim_payout_apply user bonus dust s := by
  unfold claim_payout_finish at h
  repeat' split at h
  all_goals try exact Except.noConfusion h
  injection h with h
  simp_all

theorem claim_payout_ok {cid : String} {user : Nat} {s s' : PState}
    (h : claim_payout cid user s = .ok s') :
    ∃ p, findPart user s.parts = some p ∧
      s.challenge.challenge_id = cid ∧ s.challenge.status = .Settled ∧
      p.is_settled = true ∧ p.is_winner = true ∧ p.payout_claimed = false ∧
      s.challenge.payouts_claimed_count < s.challenge.winner_count ∧
      ((s.challenge.remainder_claimed < s.challenge.remainder ∧
         s' = claim_payout_apply user (s.challenge.bonus_per_winner + 1) 1 s) ∨
       (s.challenge.remainder ≤ s.challenge.remainder_claimed ∧
         s' = claim_payout_apply user s.challenge.bonus_per_winner 0 s)) := by
  unfold claim_payout at h
  split at h
  next hfp => exact Except.noConfusion h
  next p hfp =>
    refine ⟨p, hfp, ?_⟩
    repeat' split at h
    all_goals try exact Except.noConfusion h
    · have h2 := claim_payout_finish_ok h
      exact ⟨by assumption, by assumption, by simp_all, by simp_all, by simp_all,
        by assumption, Or.inl ⟨by assumption, h2.2.2.2.2⟩⟩
    · have h2 := claim_payout_finish_ok h
      exact ⟨by assumption, by assumption, by simp_all, by simp_all, by simp_all,
        by assumption, Or.inr ⟨by omega, h2.2.2.2.2⟩⟩

theorem claim_payout_ok_amount {cid : String} {user : Nat} {s s' : PState}
    (h : claim_payout cid user s = .ok s') :
    s.challenge.stake_amount +
      (s.challenge.bonus_per_winner +
        (if s.challenge.remainder_claimed < s.challenge.remainder
         then 1 else 0)) ≤ s.vault ∧
    s.challenge.payouts_claimed_count + 1 < U32M ∧
    s.challenge.stake_amount +
      (s.challenge.bonus_per_winner +
        (if s.challenge.remainder_claimed < s.challenge.remainder
         then 1 else 0)) < U64M ∧
    s.challenge.remainder_claimed +
      (if s.challenge.remainder_claimed < s.challenge.remainder
       then 1 else 0) < U64M := by
  unfold claim_payout at h
  split at h
  next hfp => exact Except.noConfusion h
  next p hfp =>
    repeat' split at h
    all_goals try exact Except.noConfusion h
    · have h2 := claim_payout_finish_ok h
      rw [if_pos (by assumption :
        s.challenge.remainder_claimed < s.challenge.remainder)]
      exact ⟨h2.2.1, h2.2.2.1, h2.1, h2.2.2.2.1⟩
    · have h2 := claim_payout_finish_ok h
      rw [if_neg (by omega :
        ¬ s.challenge.remainder_claimed < s.challenge.remainder)]
      exact ⟨by simpa using h2.2.1, h2.2.2.1, by simpa using h2.1,
        by simpa using h2.2.2.2.1⟩

theorem claim_forfeited_stakes_ok {fac : EscrowFactory} {cid : String}
    {treasury : Nat} {s s' : PState}
    (h : claim_forfeited_stakes fac cid treasury s = .ok s') :
    s.challenge.challenge_id = cid ∧ s.challenge.status = .Settled ∧
    s.challenge.winner_count = 0 ∧ 0 < s.challenge.forfeited_amount ∧
    treasury = fac.treasury ∧ s.challenge.forfeited_amount ≤ s.vault ∧
    s' = claim_forfeited_apply s := by
  unfold claim_forfeited_stakes at h
  repeat' split at h
  all_goals try exact Except.noConfusion h
  injection h with h
  simp_all

theorem cancel_challenge_ok {cid : String} {creator : Nat} {now : Int}
    {s s' : PState} (h : cancel_challenge cid creator now s = .ok s') :
    s.challenge.challenge_id = cid ∧ creator = s.challenge.creator ∧
    s.challenge.status = .Created ∧ now < s.challenge.start_ts ∧
    s' = cancel_apply s := by
  unfold cancel_challenge at h
  repeat' split at h
  all_goals try exact Except.noConfusion h
  injection h with h
  simp_all

theorem claim_refund_ok {cid : String} {user : Nat} {s s' : PState}
    (h : claim_refund cid user s = .ok s') :
    ∃ p, findPart user s.parts = some p ∧
      s.challenge.challenge_id = cid ∧ s.challenge.status = .Cancelled ∧
      p.joined = true ∧ p.refund_claimed = false ∧
      p.stake_deposited ≤ s.vault ∧
      s' = claim_refund_apply user p.stake_deposited s := by
  unfold claim_refund at h
  split at h
  next hfp => exact Except.noConfusion h
  next p hfp =>
    refine ⟨p, hfp, ?_⟩
    repeat' split at h
    all_goals try exact Except.noConfusion h
    injection h with h
    simp_all

theorem close_participant_ok {cid : String} {authority destination user : Nat}
    {s s' : PState}
    (h : close_participant cid authority destination user s = .ok s') :
    (s.challenge.status = .Settled ∨ s.challenge.status = .Cancelled) ∧
    0 < s.challenge.active_participants ∧
    s' = close_participant_apply user s := by
  unfold close_participant close_participant_finish at h
  repeat' split at h
  all_goals try exact Except.noConfusion h
  all_goals injection h with h
  all_goals subst h
  · exact ⟨Or.inl (by assumption), by assumption, rfl⟩
  · exact ⟨Or.inl (by assumption), by assumption, rfl⟩
  · exact ⟨Or.inr (by assumption), by assumption, rfl⟩

theorem close_escrow_vault_ok {cid : String} {creator : Nat} {s s' : PState}
    (h : close_escrow_vault cid creator s = .ok s') :
    (s.challenge.status = .Settled ∨ s.challenge.status = .Cancelled) ∧
    s.vault = 0 ∧ s' = s := by
  unfold close_escrow_vault at h
  repeat' split at h
  all_goals try exact Except.noConfusion h
  all_goals injection h with h
  all_goals subst h
  · exact ⟨Or.inl (by assumption), by assumption, rfl⟩
  · exact ⟨Or.inr (by assumption), by assumption, rfl⟩

theorem close_challenge_ok {cid : String} {creator : Nat} {s s' : PState}
    (h : close_challenge cid creator s = .ok s') :
    (s.challenge.status = .Settled ∨ s.challenge.status = .Cancelled) ∧
    s.challenge.active_participants = 0 ∧ s' = s := by
  unfold close_challenge at h
  repeat' split at h
  all_goals try exact Except.noConfusion h
  all_goals injection h with h
  all_goals subst h
  · exact ⟨Or.inl (by assumption), by assumption, rfl⟩
  · exact ⟨Or.inr (by assumption), by assumption, rfl⟩

/-! ### The step relation and reachability -/

/-- One successful program instruction acting on an existing challenge's
state.  The registry (factory) arguments, caller identities and the clock
are free: any configuration and any call time. -/
inductive Step : PState → PState → Prop
  | join (cid : String) (user : Nat) (now : Int) {s s' : PState} :
      join_challenge cid user now s = .ok s' → Step s s'
  | record (fac : EscrowFactory) (cid : String) (user oracle : Nat) (now : Int)
      {s s' : PState} :
      record_proof fac cid user oracle now s = .ok s' → Step s s'
  | settleC (fac : EscrowFactory) (cid : String) (oracle : Nat) (now : Int)
      {s s' : PState} :
      settle_challenge fac cid oracle now s = .ok s' → Step s s'
  | settleP (fac : EscrowFactory) (cid : String) (user oracle : Nat)
      {s s' : PState} :
      settle_participant fac cid user oracle s = .ok s' → Step s s'
  | finalize (fac : EscrowFactory) (cid : String) (oracle : Nat)
      {s s' : PState} :
      finalize_settlement fac cid oracle s = .ok s' → Step s s'
  | payout (cid : String) (user : Nat) {s s' : PState} :
      claim_payout cid user s = .ok s' → Step s s'
  | forfeit (fac : EscrowFactory) (cid : String) (treasury : Nat)
      {s s' : PState} :
      claim_forfeited_stakes fac cid treasury s = .ok s' → Step s s'
  | cancel (cid : String) (creator : Nat) (now : Int) {s s' : PState} :
      cancel_challenge cid creator now s = .ok s' → Step s s'
  | refund (cid : String) (user : Nat) {s s' : PState} :
      claim_refund cid user s = .ok s' → Step s s'
  | closeP (cid : String) (authority destination user : Nat) {s s' : PState} :
      close_participant cid authority destination user s = .ok s' → Step s s'
  | closeV (cid : String) (creator : Nat) {s s' : PState} :
      close_escrow_vault cid creator s = .ok s' → Step s s'
  | closeC (cid : String) (creator : Nat) {s s' : PState} :
      close_challenge cid creator s = .ok s' → Step s s'

/-- A freshly created challenge state: the output of some successful
`create_challenge` call whose numeric arguments fit their machine types
(`stake_amount : u64`, `total_days : u32`). -/
def Inited (s : PState) : Prop :=
  ∃ now cid stake_amount total_days start_ts creator f f',
    stake_amount < U64M ∧ total_days < U32M ∧
    create_challenge now cid stake_amount total_days start_ts creator f
      = .ok (f', s)

/-- Challenge states reachable from creation through any sequence of
successful instructions. -/
def Reachable (s : PState) : Prop :=
  ∃ s₀, Inited s₀ ∧ Relation.ReflTransGen Step s₀ s

/-! ### The fund-accounting invariant -/

/-- Invariant maintained by every instruction: distinct participant keys;
a `u64`-representable stake and vault balance; before settlement the vault
holds exactly one stake per joined participant and the loser counter is
dominated by the settled-participant count, itself dominated by the
participant-record count; once `Settled`, the dust counter equals
`min payouts_claimed_count remainder` and the frozen remainder is at most
the winner count. -/
structure Inv (s : PState) : Prop where
  keys_nodup : (s.parts.map Prod.fst).Nodup
  stake_lt : s.challenge.stake_amount < U64M
  vault_lt : s.vault < U64M
  funded : (s.challenge.status = .Created ∨ s.challenge.status = .Started ∨
      s.challenge.status = .Ended) →
    s.vault = s.parts.length * s.challenge.stake_amount ∧
    s.challenge.loser_count ≤ settledCount s.parts ∧
    settledCount s.parts ≤ s.parts.length
  claims : s.challenge.status = .Settled →
    s.challenge.remainder_claimed
      = min s.challenge.payouts_claimed_count s.challenge.remainder ∧
    s.challenge.remainder ≤ s.challenge.winner_count

theorem inv_inited {s : PState} (h : Inited s) : Inv s := by
  obtain ⟨now, cid, stake, td, start, creator, f, f', hst, htd, hc⟩ := h
  obtain ⟨h1, h2, h3, h4, h4', h5⟩ := create_challenge_ok hc
  have hs : s = (create_apply cid stake td start creator f).2 := by rw [← h5]
  subst hs
  constructor
  · simp [create_apply]
  · simpa [create_apply] using hst
  · simp [create_apply, U64M]
  · intro _
    simp [create_apply, settledCount]
  · intro hcs
    simp [create_apply] at hcs

theorem inv_step {s s' : PState} (hs : Step s s') (hi : Inv s) : Inv s' := by
  cases hs with
  | join cid user now h =>
    obtain ⟨hfp, hcid, hst, hnow, hv, ha, rfl⟩ := join_ok h
    obtain ⟨hvv, hlc, hcnt⟩ := hi.funded (Or.inl hst)
    constructor
    · simp only [join_apply, List.map_cons, List.nodup_cons]
      exact ⟨findPart_eq_none hfp, hi.keys_nodup⟩
    · exact hi.stake_lt
    · simpa [join_apply] using hv
    · intro _
      refine ⟨?_, ?_, ?_⟩
      · simp only [join_apply, List.length_cons]
        rw [hvv]
        ring
      · simp only [join_apply, settledCount]
        simp only [if_neg (by simp : ¬ (false = true))]
        omega
      · simp only [join_apply, settledCount, List.length_cons]
        simp only [if_neg (by simp : ¬ (false = true))]
        have := settledCount_le_length s.parts
        omega
    · intro hcs
      simp only [join_apply] at hcs
      rw [hst] at hcs
      exact ChallengeStatus.noConfusion hcs
  | record fac cid user oracle now h =>
    obtain ⟨p, hfp, hcid, hst, _, _, hj, _, hpd, rfl⟩ := record_proof_ok h
    obtain ⟨hvv, hlc, hcnt⟩ := hi.funded
      (by rcases hst with h1 | h1
          · exact Or.inl h1
          · exact Or.inr (Or.inl h1))
    have hsc := settledCount_setPart_inv
      (f := fun q => { q with proof_days := (q.proof_days + 1) % U32M })
      (fun q => rfl) user s.parts
    constructor
    · simpa [record_proof_apply, keys_setPart] using hi.keys_nodup
    · exact hi.stake_lt
    · simpa [record_proof_apply] using hi.vault_lt
    · intro _
      refine ⟨?_, ?_, ?_⟩
      · simpa [record_proof_apply, length_setPart, hsc] using hvv
      · simpa [record_proof_apply, hsc] using hlc
      · simpa [record_proof_apply, hsc, length_setPart] using hcnt
    · intro hcs
      simp only [record_proof_apply] at hcs
      rcases hst with h1 | h1 <;> rw [h1] at hcs <;> simp at hcs
  | settleC fac cid oracle now h =>
    obtain ⟨hcid, hst, hnow, hor, rfl⟩ := settle_challenge_ok h
    obtain ⟨hvv, hlc, hcnt⟩ := hi.funded
      (by rcases hst with h1 | h1
          · exact Or.inl h1
          · exact Or.inr (Or.inl h1))
    constructor
    · simpa [settle_challenge_apply] using hi.keys_nodup
    · exact hi.stake_lt
    · simpa [settle_challenge_apply] using hi.vault_lt
    · intro _
      exact ⟨by simpa [settle_challenge_apply] using hvv,
        by simpa [settle_challenge_apply] using hlc,
        by simpa [settle_challenge_apply] using hcnt⟩
    · intro hcs
      simp [settle_challenge_apply] at hcs
  | settleP fac cid user oracle h =>
    obtain ⟨p, hfp, hcid, hst, hor, hset, hbr⟩ := settle_participant_ok h
    obtain ⟨hvv, hlc, hcnt⟩ := hi.funded (Or.inr (Or.inr hst))
    have hcnt2 : settledCount s.parts < s.parts.length :=
      settledCount_lt_length hfp hset
    rcases hbr with ⟨hge, rfl⟩ | ⟨hlt, rfl⟩
    · have hsc : settledCount (setPart user
          (fun q => { q with is_winner := true, is_settled := true }) s.parts)
          = settledCount s.parts + 1 :=
        settledCount_setPart_settle hi.keys_nodup hfp hset rfl
      constructor
      · simpa [settle_participant_win, keys_setPart] using hi.keys_nodup
      · exact hi.stake_lt
      · simpa [settle_participant_win] using hi.vault_lt
      · intro _
        refine ⟨?_, ?_, ?_⟩
        · simpa [settle_participant_win, length_setPart, hsc] using hvv
        · simp only [settle_participant_win, hsc]
          omega
        · simp only [settle_participant_win, hsc, length_setPart]
          omega
      · intro hcs
        simp only [settle_participant_win] at hcs
        rw [hst] at hcs
        exact ChallengeStatus.noConfusion hcs
    · have hsc : settledCount (setPart user
          (fun q => { q with is_settled := true }) s.parts)
          = settledCount s.parts + 1 :=
        settledCount_setPart_settle hi.keys_nodup hfp hset rfl
      have hm : (s.challenge.loser_count + 1) % U32M
          ≤ s.challenge.loser_count + 1 := Nat.mod_le _ _
      constructor
      · simpa [settle_participant_lose, keys_setPart] using hi.keys_nodup
      · exact hi.stake_lt
      · simpa [settle_participant_lose] using hi.vault_lt
      · intro _
        refine ⟨?_, ?_, ?_⟩
        · simpa [settle_participant_lose, length_setPart, hsc] using hvv
        · simp only [settle_participant_lose, hsc]
          omega
        · simp only [settle_participant_lose, hsc, length_setPart]
          omega
      · intro hcs
        simp only [settle_participant_lose] at hcs
        rw [hst] at hcs
        exact ChallengeStatus.noConfusion hcs
  | finalize fac cid oracle h =>
    obtain ⟨hcid, hst, hor, hsum, hbr⟩ := finalize_settlement_ok h
    rcases hbr with ⟨hw0, rfl⟩ | ⟨hw, hl0, rfl⟩ | ⟨hw, hl, rfl⟩
    · constructor
      · simpa [finalize_no_winner] using hi.keys_nodup
      · exact hi.stake_lt
      · simpa [finalize_no_winner] using hi.vault_lt
      · intro hcs
        rcases hcs with h1 | h1 | h1 <;> simp [finalize_no_winner] at h1
      · intro _
        simp [finalize_no_winner]
    · constructor
      · simpa [finalize_no_loser] using hi.keys_nodup
      · exact hi.stake_lt
      · simpa [finalize_no_loser] using hi.vault_lt
      · intro hcs
        rcases hcs with h1 | h1 | h1 <;> simp [finalize_no_loser] at h1
      · intro _
        simp [finalize_no_loser]
    · constructor
      · simpa [finalize_mixed] using hi.keys_nodup
      · exact hi.stake_lt
      · simpa [finalize_mixed] using hi.vault_lt
      · intro hcs
        rcases hcs with h1 | h1 | h1 <;> simp [finalize_mixed] at h1
      · intro _
        refine ⟨by simp [finalize_mixed], ?_⟩
        simp only [finalize_mixed]
        exact le_of_lt (Nat.mod_lt _ (Nat.pos_of_ne_zero hw))
  | payout cid user h =>
    obtain ⟨p, hfp, hcid, hst, hsd, hwn, hpc, hlt, hbr⟩ := claim_payout_ok h
    obtain ⟨hrc, hrle⟩ := hi.claims hst
    rcases hbr with ⟨hd, rfl⟩ | ⟨hd, rfl⟩
    · constructor
      · simpa [claim_payout_apply, keys_setPart] using hi.keys_nodup
      · exact hi.stake_lt
      · exact lt_of_le_of_lt
          (by simpa [claim_payout_apply] using Nat.sub_le s.vault _) hi.vault_lt
      · intro hcs
        rcases hcs with h1 | h1 | h1 <;>
          simp only [claim_payout_apply] at h1 <;> rw [hst] at h1 <;>
          exact ChallengeStatus.noConfusion h1
      · intro _
        simp only [claim_payout_apply]
        exact ⟨by omega, hrle⟩
    · constructor
      · simpa [claim_payout_apply, keys_setPart] using hi.keys_nodup
      · exact hi.stake_lt
      · exact lt_of_le_of_lt
          (by simpa [claim_payout_apply] using Nat.sub_le s.vault _) hi.vault_lt
      · intro hcs
        rcases hcs with h1 | h1 | h1 <;>
          simp only [claim_payout_apply] at h1 <;> rw [hst] at h1 <;>
          exact ChallengeStatus.noConfusion h1
      · intro _
        simp only [claim_payout_apply]
        exact ⟨by omega, hrle⟩
  | forfeit fac cid treasury h =>
    obtain ⟨hcid, hst, hw0, hf, htr, hfv, rfl⟩ := claim_forfeited_stakes_ok h
    obtain ⟨hrc, hrle⟩ := hi.claims hst
    constructor
    · simpa [claim_forfeited_apply] using hi.keys_nodup
    · exact hi.stake_lt
    · exact lt_of_le_of_lt
        (by simpa [claim_forfeited_apply] using Nat.sub_le s.vault _)
        hi.vault_lt
    · intro hcs
      rcases hcs with h1 | h1 | h1 <;>
        simp only [claim_forfeited_apply] at h1 <;> rw [hst] at h1 <;>
        exact ChallengeStatus.noConfusion h1
    · intro _
      exact ⟨by simpa [claim_forfeited_apply] using hrc,
        by simpa [claim_forfeited_apply] using hrle⟩
  | cancel cid creator now h =>
    obtain ⟨hcid, hcr, hst, hnow, rfl⟩ := cancel_challenge_ok h
    constructor
    · simpa [cancel_apply] using hi.keys_nodup
    · exact hi.stake_lt
    · simpa [cancel_apply] using hi.vault_lt
    · intro hcs
      rcases hcs with h1 | h1 | h1 <;> simp [cancel_apply] at h1
    · intro hcs
      simp [cancel_apply] at hcs
  | refund cid user h =>
    obtain ⟨p, hfp, hcid, hst, hj, hrf, hsv, rfl⟩ := claim_refund_ok h
    constructor
    · simpa [claim_refund_apply, keys_setPart] using hi.keys_nodup
    · exact hi.stake_lt
    · exact lt_of_le_of_lt
        (by simpa [claim_refund_apply] using Nat.sub_le s.vault _) hi.vault_lt
    · intro hcs
      rcases hcs with h1 | h1 | h1 <;>
        simp only [claim_refund_apply] at h1 <;> rw [hst] at h1 <;>
        exact ChallengeStatus.noConfusion h1
    · intro hcs
      simp only [claim_refund_apply] at hcs
      rw [hst] at hcs
      exact ChallengeStatus.noConfusion hcs
  | closeP cid authority destination user h =>
    obtain ⟨hterm, hact, rfl⟩ := close_participant_ok h
    constructor
    · exact List.Nodup.sublist (keys_removePart_sublist user s.parts)
        hi.keys_nodup
    · exact hi.stake_lt
    · simpa [close_participant_apply] using hi.vault_lt
    · intro hcs
      simp only [close_participant_apply] at hcs
      rcases hterm with h1 | h1 <;> rw [h1] at hcs <;>
        rcases hcs with h2 | h2 | h2 <;> exact ChallengeStatus.noConfusion h2
    · intro hcs
      simp only [close_participant_apply] at hcs
      obtain ⟨h1, h2⟩ := hi.claims hcs
      exact ⟨by simpa [close_participant_apply] using h1,
        by simpa [close_participant_apply] using h2⟩
  | closeV cid creator h =>
    obtain ⟨_, _, rfl⟩ := close_escrow_vault_ok h
    exact hi
  | closeC cid creator h =>
    obtain ⟨_, _, rfl⟩ := close_challenge_ok h
    exact hi

theorem reachable_inv {s : PState} (h : Reachable s) : Inv s := by
  obtain ⟨s₀, h0, hsteps⟩ := h
  induction hsteps with
  | refl => exact inv_inited h0
  | tail hst hstep ih => exact inv_step hstep ih

/-! ### Claim C3: required-days rounding -/

/-- C3 counterexample: `required_days` is computed with a truncating
`as u32` cast, so for `total_days = u32::MAX` and `threshold_bps = 65535`
(a value above 10000) it returns `28147068168 % 2^32 = 2377264392`, not the
ceiling `28147068168`; the claim's "for every threshold_bps" is false. -/
theorem claim3_counterexample :
    required_days 4294967295 65535 = 2377264392 ∧
    specRequiredDays 4294967295 65535 = 28147068168 ∧
    (2377264392 : Nat) ≠ 28147068168 := by
  refine ⟨by decide, by decide, by decide⟩

/-- C3 amended: for every `total_days ≥ 1` (in `u32` range) and every
`threshold_bps ≤ 10000`, `required_days` equals the spec's ceiling
`ceil(total_days * threshold_bps / 10000)` and rounds up, never down:
`total_days * threshold_bps ≤ 10000 * result < total_days * threshold_bps
+ 10000`.  In particular `required_days 1 8000 = 1`. -/
theorem claim3_required_days_ceiling (total_days threshold_bps : Nat)
    (h1 : 1 ≤ total_days) (h2 : total_days < U32M)
    (h3 : threshold_bps ≤ 10000) :
    required_days total_days threshold_bps
      = specRequiredDays total_days threshold_bps ∧
    total_days * threshold_bps
      ≤ 10000 * required_days total_days threshold_bps ∧
    10000 * required_days total_days threshold_bps
      < total_days * threshold_bps + 10000 := by
  have hP : total_days * threshold_bps ≤ (U32M - 1) * 10000 := by
    apply Nat.mul_le_mul <;> omega
  have hPn : (U32M - 1) * 10000 = 42949672950000 := by norm_num [U32M]
  have h01 : total_days * threshold_bps ≤ U64M - 1 := by
    rw [hPn] at hP
    norm_num [U64M]
    omega
  have h02 : total_days * threshold_bps + 9999 ≤ U64M - 1 := by
    rw [hPn] at hP
    norm_num [U64M]
    omega
  have hq : (total_days * threshold_bps + 9999) / 10000 < U32M := by
    have hd : (total_days * threshold_bps + 9999) / 10000
        ≤ ((U32M - 1) * 10000 + 9999) / 10000 := by
      apply Nat.div_le_div_right
      omega
    have he : ((U32M - 1) * 10000 + 9999) / 10000 = U32M - 1 := by
      rw [hPn]
      norm_num [U32M]
    omega
  simp only [required_days, specRequiredDays]
  rw [min_eq_left h01, min_eq_left h02, Nat.mod_eq_of_lt hq]
  have e3 : total_days * threshold_bps + 10000 - 1
      = total_days * threshold_bps + 9999 := by omega
  rw [e3]
  have hdm := Nat.div_add_mod (total_days * threshold_bps + 9999) 10000
  have hml : (total_days * threshold_bps + 9999) % 10000 < 10000 :=
    Nat.mod_lt _ (by norm_num)
  exact ⟨rfl, by omega, by omega⟩

/-- C3 witness: the amended theorem at `total_days = 1`,
`threshold_bps = 8000` gives the ceiling value 1 (not the floor 0). -/
theorem claim3_witness :
    required_days 1 8000 = specRequiredDays 1 8000 ∧
    required_days 1 8000 = 1 :=
  ⟨(claim3_required_days_ceiling 1 8000 (by decide) (by decide) (by decide)).1,
   by decide⟩

/-! ### Claim C10: challenge-record reclamation -/

/-- C10: `close_challenge` succeeds only in a terminal status
(`Settled` or `Cancelled`) and only with `active_participants == 0`; in
particular a `Settled` challenge whose payouts and dust are all fully
claimed still fails with `ParticipantsRemaining` while any participant
record remains open. -/
theorem claim10_close_challenge (cid : String) (creator : Nat)
    (s s' : PState) :
    (close_challenge cid creator s = .ok s' →
      s.challenge.active_participants = 0 ∧
      (s.challenge.status = .Settled ∨ s.challenge.status = .Cancelled)) ∧
    (s.challenge.challenge_id = cid → s.challenge.creator = creator →
      s.challenge.status = .Settled →
      0 < s.challenge.winner_count →
      s.challenge.payouts_claimed_count = s.challenge.winner_count →
      s.challenge.remainder_claimed = s.challenge.remainder →
      s.challenge.active_participants ≠ 0 →
      close_challenge cid creator s = .error .ParticipantsRemaining) := by
  constructor
  · intro h
    obtain ⟨hterm, hact, _⟩ := close_challenge_ok h
    exact ⟨hact, hterm⟩
  · intro hcid hcr hst hwc hpcc hrc hact
    unfold close_challenge
    rw [if_pos hcid, if_pos hcr, hst]
    rw [if_neg (by omega : ¬ (0 < s.challenge.winner_count ∧
      s.challenge.payouts_claimed_count ≠ s.challenge.winner_count))]
    rw [if_neg (by omega : ¬ (0 < s.challenge.winner_count ∧
      s.challenge.remainder_claimed ≠ s.challenge.remainder))]
    rw [if_neg (by omega : ¬ (s.challenge.winner_count = 0 ∧
      s.challenge.forfeited_amount ≠ 0))]
    rw [if_neg hact]

/-! ### Claim C9: proof recording -/

/-- C9: a successful `record_proof` increments the participant's
`proof_days` by exactly 1 and flips a still-`Created` challenge to
`Started`; with every other precondition satisfied, a proof attempt at
`proof_days ≥ total_days` is rejected with `MaxProofsReached` (the state is
untouched: an error aborts the transaction with no write). -/
theorem claim9_record_proof (fac : EscrowFactory) (cid : String)
    (user oracle : Nat) (now : Int) (s s' : PState) (p : Participant)
    (htd : s.challenge.total_days < U32M) :
    (record_proof fac cid user oracle now s = .ok s' →
      (∀ q, findPart user s.parts = some q →
        findPart user s'.parts
          = some { q with proof_days := q.proof_days + 1 }) ∧
      (s.challenge.status = .Created → s'.challenge.status = .Started) ∧
      (s.challenge.status = .Started → s'.challenge.status = .Started)) ∧
    (findPart user s.parts = some p →
      s.challenge.challenge_id = cid →
      (s.challenge.status = .Created ∨ s.challenge.status = .Started) →
      s.challenge.start_ts ≤ now → now ≤ s.challenge.end_ts →
      p.joined = true → oracle = fac.oracle →
      s.challenge.total_days ≤ p.proof_days →
      record_proof fac cid user oracle now s = .error .MaxProofsReached) := by
  constructor
  · intro h
    obtain ⟨p', hfp', hcid, hst, hs1, hs2, hj, hor, hpd, rfl⟩ :=
      record_proof_ok h
    refine ⟨?_, ?_, ?_⟩
    · intro q hq
      have hq' : p' = q := by rw [hfp'] at hq; injection hq
      subst hq'
      simp only [record_proof_apply]
      rw [findPart_setPart, hfp']
      have : (p'.proof_days + 1) % U32M = p'.proof_days + 1 :=
        Nat.mod_eq_of_lt (by omega)
      simp [this]
    · intro hc
      simp [record_proof_apply, hc]
    · intro hc
      simp only [record_proof_apply]
      rw [hc]
      simp
  · intro hfp hcid hst hs1 hs2 hj hor hge
    unfold record_proof
    simp only [hfp]
    rw [if_pos hcid, if_pos hst, if_pos hs1, if_pos hs2, if_pos hj,
      if_pos hor, if_neg (by omega : ¬ p.proof_days < s.challenge.total_days)]

/-! ### Claim C8: per-participant settlement -/

/-- C8: a successful `settle_participant` requires `Ended` status, moves no
funds, marks the participant winner (incrementing `winner_count`) exactly
when `proof_days ≥ required_days` and loser (incrementing `loser_count`)
otherwise, latches `is_settled`, and a second attempt for the same
participant fails with `AlreadySettled`.  The two `+ 1 < 2^32` hypotheses
say the `u32` counters are not at their maximum, so the machine increment
is the numeric increment. -/
theorem claim8_settle_participant (fac : EscrowFactory) (cid : String)
    (user oracle : Nat) (s s' : PState)
    (hwc : s.challenge.winner_count + 1 < U32M)
    (hlc : s.challenge.loser_count + 1 < U32M)
    (h : settle_participant fac cid user oracle s = .ok s') :
    s.challenge.status = .Ended ∧ s'.vault = s.vault ∧
    (∀ p, findPart user s.parts = some p →
      (required_days s.challenge.total_days s.challenge.threshold_bps
          ≤ p.proof_days →
        s'.challenge.winner_count = s.challenge.winner_count + 1 ∧
        s'.challenge.loser_count = s.challenge.loser_count ∧
        findPart user s'.parts
          = some { p with is_winner := true, is_settled := true }) ∧
      (p.proof_days < required_days s.challenge.total_days
          s.challenge.threshold_bps →
        s'.challenge.loser_count = s.challenge.loser_count + 1 ∧
        s'.challenge.winner_count = s.challenge.winner_count ∧
        findPart user s'.parts = some { p with is_settled := true })) ∧
    settle_participant fac cid user oracle s' = .error .AlreadySettled := by
  obtain ⟨p, hfp, hcid, hst, hor, hset, hbr⟩ := settle_participant_ok h
  rcases hbr with ⟨hge, rfl⟩ | ⟨hlt, rfl⟩
  · refine ⟨hst, rfl, ?_, ?_⟩
    · intro q hq
      have hq' : p = q := by rw [hfp] at hq; injection hq
      subst hq'
      constructor
      · intro _
        refine ⟨?_, rfl, ?_⟩
        · simp only [settle_participant_win]
          exact Nat.mod_eq_of_lt hwc
        · simp only [settle_participant_win]
          rw [findPart_setPart, hfp]
          rfl
      · intro hcon
        exact absurd hcon (by omega)
    · unfold settle_participant
      have h2 : findPart user (settle_participant_win user s).parts
          = some { p with is_winner := true, is_settled := true } := by
        simp only [settle_participant_win]
        rw [findPart_setPart, hfp]
        rfl
      simp only [h2]
      rw [if_pos (show (settle_participant_win user s).challenge.challenge_id
            = cid from hcid),
          if_pos (show (settle_participant_win user s).challenge.status
            = .Ended from hst),
          if_pos hor]
      simp
  · refine ⟨hst, rfl, ?_, ?_⟩
    · intro q hq
      have hq' : p = q := by rw [hfp] at hq; injection hq
      subst hq'
      constructor
      · intro hcon
        exact absurd hcon (by omega)
      · intro _
        refine ⟨?_, rfl, ?_⟩
        · simp only [settle_participant_lose]
          exact Nat.mod_eq_of_lt hlc
        · simp only [settle_participant_lose]
          rw [findPart_setPart, hfp]
          rfl
    · unfold settle_participant
      have h2 : findPart user (settle_participant_lose user s).parts
          = some { p with is_settled := true } := by
        simp only [settle_participant_lose]
        rw [findPart_setPart, hfp]
        rfl
      simp only [h2]
      rw [if_pos (show (settle_participant_lose user s).challenge.challenge_id
            = cid from hcid),
          if_pos (show (settle_participant_lose user s).challenge.status
            = .Ended from hst),
          if_pos hor]
      simp

/-! ### Claim C6: exactly-once claims -/

/-- C6: after a first successful payout, refund, or forfeiture claim, an
identical second attempt fails with the corresponding error
(`PayoutAlreadyClaimed`, `AlreadyClaimed`, `NoForfeitedStakes`); since an
error aborts the transaction, nothing is transferred. -/
theorem claim6_idempotent (fac : EscrowFactory) (cid : String)
    (user treasury : Nat) (s₁ s₁' s₂ s₂' s₃ s₃' : PState) :
    (claim_payout cid user s₁ = .ok s₁' →
      claim_payout cid user s₁' = .error .PayoutAlreadyClaimed) ∧
    (claim_refund cid user s₂ = .ok s₂' →
      claim_refund cid user s₂' = .error .AlreadyClaimed) ∧
    (claim_forfeited_stakes fac cid treasury s₃ = .ok s₃' →
      claim_forfeited_stakes fac cid treasury s₃' =
        .error .NoForfeitedStakes) := by
  refine ⟨?_, ?_, ?_⟩
  · intro h
    obtain ⟨p, hfp, hcid, hst, hsd, hwn, hpc, hlt, hbr⟩ := claim_payout_ok h
    have hparts : s₁'.parts
        = setPart user (fun q => { q with payout_claimed := true }) s₁.parts := by
      rcases hbr with ⟨_, rfl⟩ | ⟨_, rfl⟩ <;> rfl
    have hch1 : s₁'.challenge.challenge_id = cid := by
      rcases hbr with ⟨_, rfl⟩ | ⟨_, rfl⟩ <;> exact hcid
    have hch2 : s₁'.challenge.status = .Settled := by
      rcases hbr with ⟨_, rfl⟩ | ⟨_, rfl⟩ <;> exact hst
    unfold claim_payout
    have h2 : findPart user s₁'.parts
        = some { p with payout_claimed := true } := by
      rw [hparts, findPart_setPart, hfp]
      rfl
    simp only [h2]
    rw [if_pos hch1, if_pos hch2,
        if_pos (show ({ p with payout_claimed := true }
          : Participant).is_settled = true from hsd),
        if_pos (show ({ p with payout_claimed := true }
          : Participant).is_winner = true from hwn)]
    simp
  · intro h
    obtain ⟨p, hfp, hcid, hst, hj, hrf, hsv, rfl⟩ := claim_refund_ok h
    unfold claim_refund
    have h2 : findPart user (claim_refund_apply user p.stake_deposited s₂).parts
        = some { p with refund_claimed := true } := by
      simp only [claim_refund_apply]
      rw [findPart_setPart, hfp]
      rfl
    simp only [h2]
    rw [if_pos (show (claim_refund_apply user p.stake_deposited
          s₂).challenge.challenge_id = cid from hcid),
        if_pos (show (claim_refund_apply user p.stake_deposited
          s₂).challenge.status = .Cancelled from hst),
        if_pos (show ({ p with refund_claimed := true }
          : Participant).joined = true from hj)]
    simp
  · intro h
    obtain ⟨hcid, hst, hw0, hf, htr, hfv, rfl⟩ := claim_forfeited_stakes_ok h
    unfold claim_forfeited_stakes
    rw [if_pos (show (claim_forfeited_apply s₃).challenge.challenge_id = cid
          from hcid),
        if_pos (show (claim_forfeited_apply s₃).challenge.status = .Settled
          from hst),
        if_pos (show (claim_forfeited_apply s₃).challenge.winner_count = 0
          from hw0),
        if_neg (show ¬ 0 < (claim_forfeited_apply s₃).challenge.forfeited_amount
          from by simp [claim_forfeited_apply])]

/-! ### Claim C7: settlement finalization gate -/

/-- C7: `finalize_settlement` succeeds only in `Ended` status with
`winner_count + loser_count = participant_count`, fails with
`SettlementIncomplete` when the classification is incomplete, and on
success resets both claim counters, moves the status to `Settled`, and in
the no-winners case freezes `forfeited_amount = participant_count ×
stake_amount` with zero bonus and remainder.  The two numeric hypotheses
state that the `u32` sum and `u64` product do not overflow, so the machine
comparisons coincide with the numeric ones. -/
theorem claim7_finalize (fac : EscrowFactory) (cid : String) (oracle : Nat)
    (s s' : PState)
    (hsum : s.challenge.winner_count + s.challenge.loser_count < U32M)
    (hmul : s.challenge.participant_count * s.challenge.stake_amount < U64M) :
    (finalize_settlement fac cid oracle s = .ok s' →
      s.challenge.status = .Ended ∧
      s.challenge.winner_count + s.challenge.loser_count
        = s.challenge.participant_count ∧
      s'.challenge.payouts_claimed_count = 0 ∧
      s'.challenge.remainder_claimed = 0 ∧
      s'.challenge.status = .Settled ∧
      (s.challenge.winner_count = 0 →
        s'.challenge.forfeited_amount
          = s.challenge.participant_count * s.challenge.stake_amount ∧
        s'.challenge.bonus_per_winner = 0 ∧ s'.challenge.remainder = 0)) ∧
    (s.challenge.challenge_id = cid → s.challenge.status = .Ended →
      oracle = fac.oracle →
      s.challenge.winner_count + s.challenge.loser_count
        ≠ s.challenge.participant_count →
      finalize_settlement fac cid oracle s = .error .SettlementIncomplete) := by
  constructor
  · intro h
    obtain ⟨hcid, hst, hor, hsum', hbr⟩ := finalize_settlement_ok h
    have hs : s.challenge.winner_count + s.challenge.loser_count
        = s.challenge.participant_count := by
      rw [← hsum']
      exact (Nat.mod_eq_of_lt hsum).symm
    refine ⟨hst, hs, ?_, ?_, ?_, ?_⟩
    · rcases hbr with ⟨_, rfl⟩ | ⟨_, _, rfl⟩ | ⟨_, _, rfl⟩ <;> rfl
    · rcases hbr with ⟨_, rfl⟩ | ⟨_, _, rfl⟩ | ⟨_, _, rfl⟩ <;> rfl
    · rcases hbr with ⟨_, rfl⟩ | ⟨_, _, rfl⟩ | ⟨_, _, rfl⟩ <;> rfl
    · intro hw0
      rcases hbr with ⟨_, rfl⟩ | ⟨hne, _, _⟩ | ⟨hne, _, _⟩
      · refine ⟨?_, rfl, rfl⟩
        simp only [finalize_no_winner]
        exact Nat.mod_eq_of_lt hmul
      · exact absurd hw0 hne
      · exact absurd hw0 hne
  · intro hcid hst hor hne
    unfold finalize_settlement
    rw [if_pos hcid, if_pos hst, if_pos hor,
        if_neg (show ¬ (s.challenge.winner_count + s.challenge.loser_count)
            % U32M = s.challenge.participant_count from by
          rw [Nat.mod_eq_of_lt hsum]
          exact hne)]

/-! ### Claim C2: checked versus unchecked arithmetic -/

/-- C2 amended, one conjunct per classified operation.  Checked
arithmetic that fails with the dedicated `MathOverflow` error is used for
the factory `challenge_count` increment, the `active_participants`
increment and decrement, the `payouts_claimed_count` and
`remainder_claimed` updates, and the payout-amount additions — success
therefore performs the numeric operation and implies it stays in `u32` /
`u64` range.  The `participant_count`, `winner_count` and `loser_count`
increments and the losers'-stakes and forfeited-pool products are
unchecked wrapping `u32` / `u64` arithmetic.  `proof_days` increments
unchecked too, but cannot wrap: under the `total_days < 2^32` machine
bound the cap guard makes the wrapped increment the numeric one. -/
theorem claim2_checked_unchecked (fac : EscrowFactory) (cid : String)
    (user authority destination oracle creator : Nat)
    (nowC nowJ nowR : Int) (stake_amount total_days : Nat) (start_ts : Int)
    (f f' : EscrowFactory)
    (s₀ s₁ s₁' s₂ s₂' s₃ s₃' s₄ s₄' s₅ s₅' s₆ s₆' : PState) :
    (create_challenge nowC cid stake_amount total_days start_ts creator f
        = .ok (f', s₀) →
      f'.challenge_count = f.challenge_count + 1 ∧
      f.challenge_count + 1 < U64M) ∧
    (join_challenge cid user nowJ s₁ = .ok s₁' →
      s₁'.challenge.active_participants
        = s₁.challenge.active_participants + 1 ∧
      s₁.challenge.active_participants + 1 < U32M ∧
      s₁'.challenge.participant_count
        = (s₁.challenge.participant_count + 1) % U32M) ∧
    (close_participant cid authority destination user s₂ = .ok s₂' →
      0 < s₂.challenge.active_participants ∧
      s₂'.challenge.active_participants
        = s₂.challenge.active_participants - 1) ∧
    (claim_payout cid user s₃ = .ok s₃' →
      s₃'.challenge.payouts_claimed_count
        = s₃.challenge.payouts_claimed_count + 1 ∧
      s₃.challenge.payouts_claimed_count + 1 < U32M ∧
      s₃'.challenge.remainder_claimed = s₃.challenge.remainder_claimed +
        (if s₃.challenge.remainder_claimed < s₃.challenge.remainder
         then 1 else 0) ∧
      s₃.challenge.remainder_claimed +
        (if s₃.challenge.remainder_claimed < s₃.challenge.remainder
         then 1 else 0) < U64M ∧
      s₃.challenge.stake_amount + (s₃.challenge.bonus_per_winner +
        (if s₃.challenge.remainder_claimed < s₃.challenge.remainder
         then 1 else 0)) < U64M) ∧
    (settle_participant fac cid user oracle s₅ = .ok s₅' →
      ∀ p, findPart user s₅.parts = some p →
        (required_days s₅.challenge.total_days s₅.challenge.threshold_bps
            ≤ p.proof_days →
          s₅'.challenge.winner_count
            = (s₅.challenge.winner_count + 1) % U32M) ∧
        (p.proof_days < required_days s₅.challenge.total_days
            s₅.challenge.threshold_bps →
          s₅'.challenge.loser_count
            = (s₅.challenge.loser_count + 1) % U32M)) ∧
    (finalize_settlement fac cid oracle s₄ = .ok s₄' →
      (s₄.challenge.winner_count = 0 →
        s₄'.challenge.forfeited_amount
          = (s₄.challenge.participant_count * s₄.challenge.stake_amount)
              % U64M) ∧
      (s₄.challenge.winner_count ≠ 0 → s₄.challenge.loser_count ≠ 0 →
        s₄'.challenge.bonus_per_winner
          = ((s₄.challenge.loser_count * s₄.challenge.stake_amount) % U64M)
              / s₄.challenge.winner_count ∧
        s₄'.challenge.remainder
          = ((s₄.challenge.loser_count * s₄.challenge.stake_amount) % U64M)
              % s₄.challenge.winner_count)) ∧
    (record_proof fac cid user oracle nowR s₆ = .ok s₆' →
      ∀ q, findPart user s₆.parts = some q →
        findPart user s₆'.parts
          = some { q with proof_days := (q.proof_days + 1) % U32M } ∧
        (s₆.challenge.total_days < U32M →
          (q.proof_days + 1) % U32M = q.proof_days + 1)) := by
  refine ⟨?_, ?_, ?_, ?_, ?_, ?_, ?_⟩
  · intro h
    obtain ⟨_, _, _, _, hcc, heq⟩ := create_challenge_ok h
    have h1 : f' = (create_apply cid stake_amount total_days start_ts
        creator f).1 := congrArg Prod.fst heq
    rw [h1]
    exact ⟨rfl, hcc⟩
  · intro h
    obtain ⟨_, _, _, _, _, ha, rfl⟩ := join_ok h
    exact ⟨rfl, ha, rfl⟩
  · intro h
    obtain ⟨_, hact, rfl⟩ := close_participant_ok h
    exact ⟨hact, rfl⟩
  · intro h
    have hamt := claim_payout_ok_amount h
    obtain ⟨p, _, _, _, _, _, _, _, hbr⟩ := claim_payout_ok h
    rcases hbr with ⟨hd, rfl⟩ | ⟨hd, rfl⟩
    · rw [if_pos hd] at hamt ⊢
      exact ⟨rfl, hamt.2.1, rfl, hamt.2.2.2, hamt.2.2.1⟩
    · rw [if_neg (by omega :
        ¬ s₃.challenge.remainder_claimed < s₃.challenge.remainder)]
        at hamt ⊢
      exact ⟨rfl, hamt.2.1, rfl, hamt.2.2.2, hamt.2.2.1⟩
  · intro h
    obtain ⟨p', hfp, _, _, _, _, hbr⟩ := settle_participant_ok h
    intro q hq
    have hq' : p' = q := by rw [hfp] at hq; injection hq
    subst hq'
    rcases hbr with ⟨hge, rfl⟩ | ⟨hlt, rfl⟩
    · exact ⟨fun _ => rfl, fun hcon => absurd hcon (by omega)⟩
    · exact ⟨fun hcon => absurd hcon (by omega), fun _ => rfl⟩
  · intro h
    obtain ⟨_, _, _, _, hbr⟩ := finalize_settlement_ok h
    constructor
    · intro hw0
      rcases hbr with ⟨_, rfl⟩ | ⟨hne, _, _⟩ | ⟨hne, _, _⟩
      · rfl
      · exact absurd hw0 hne
      · exact absurd hw0 hne
    · intro hw hl
      rcases hbr with ⟨hw0, _⟩ | ⟨_, hl0, _⟩ | ⟨_, _, rfl⟩
      · exact absurd hw0 hw
      · exact absurd hl0 hl
      · exact ⟨rfl, rfl⟩
  · intro h
    obtain ⟨p', hfp, _, _, _, _, _, _, hpd, rfl⟩ := record_proof_ok h
    intro q hq
    have hq' : p' = q := by rw [hfp] at hq; injection hq
    subst hq'
    constructor
    · simp only [record_proof_apply]
      rw [findPart_setPart, hfp]
      rfl
    · intro htd
      exact Nat.mod_eq_of_lt (by omega)

/-! ### Claim C4: monotone, non-revisiting status machine -/

/-- The transitions the lifecycle admits: stay put, or one of the five
forward edges `Created→Started`, `Created→Ended`, `Started→Ended`,
`Ended→Settled`, `Created→Cancelled`. -/
def forwardEdge (a b : ChallengeStatus) : Prop :=
  b = a ∨ (a = .Created ∧ b = .Started) ∨ (a = .Created ∧ b = .Ended) ∨
  (a = .Started ∧ b = .Ended) ∨ (a = .Ended ∧ b = .Settled) ∨
  (a = .Created ∧ b = .Cancelled)

/-- Position of a status along the forward order. -/
def statusRank : ChallengeStatus → Nat
  | .Created => 0
  | .Started => 1
  | .Ended => 2
  | .Settled => 3
  | .Cancelled => 4

theorem step_forwardEdge {s s' : PState} (h : Step s s') :
    forwardEdge s.challenge.status s'.challenge.status := by
  cases h with
  | join cid user now h =>
    obtain ⟨_, _, _, _, _, _, rfl⟩ := join_ok h
    exact Or.inl rfl
  | record fac cid user oracle now h =>
    obtain ⟨p, _, _, hst, _, _, _, _, _, rfl⟩ := record_proof_ok h
    rcases hst with h1 | h1
    · exact Or.inr (Or.inl ⟨h1, by simp [record_proof_apply, h1]⟩)
    · refine Or.inl ?_
      simp only [record_proof_apply]
      rw [h1]
      simp
  | settleC fac cid oracle now h =>
    obtain ⟨_, hst, _, _, rfl⟩ := settle_challenge_ok h
    rcases hst with h1 | h1
    · exact Or.inr (Or.inr (Or.inl ⟨h1, rfl⟩))
    · exact Or.inr (Or.inr (Or.inr (Or.inl ⟨h1, rfl⟩)))
  | settleP fac cid user oracle h =>
    obtain ⟨p, _, _, _, _, _, hbr⟩ := settle_participant_ok h
    rcases hbr with ⟨_, rfl⟩ | ⟨_, rfl⟩ <;> exact Or.inl rfl
  | finalize fac cid oracle h =>
    obtain ⟨_, hst, _, _, hbr⟩ := finalize_settlement_ok h
    rcases hbr with ⟨_, rfl⟩ | ⟨_, _, rfl⟩ | ⟨_, _, rfl⟩ <;>
      exact Or.inr (Or.inr (Or.inr (Or.inr (Or.inl ⟨hst, rfl⟩))))
  | payout cid user h =>
    obtain ⟨p, _, _, _, _, _, _, _, hbr⟩ := claim_payout_ok h
    rcases hbr with ⟨_, rfl⟩ | ⟨_, rfl⟩ <;> exact Or.inl rfl
  | forfeit fac cid treasury h =>
    obtain ⟨_, _, _, _, _, _, rfl⟩ := claim_forfeited_stakes_ok h
    exact Or.inl rfl
  | cancel cid creator now h =>
    obtain ⟨_, _, hst, _, rfl⟩ := cancel_challenge_ok h
    exact Or.inr (Or.inr (Or.inr (Or.inr (Or.inr ⟨hst, rfl⟩))))
  | refund cid user h =>
    obtain ⟨p, _, _, _, _, _, _, rfl⟩ := claim_refund_ok h
    exact Or.inl rfl
  | closeP cid authority destination user h =>
    obtain ⟨_, _, rfl⟩ := close_participant_ok h
    exact Or.inl rfl
  | closeV cid creator h =>
    obtain ⟨_, _, rfl⟩ := close_escrow_vault_ok h
    exact Or.inl rfl
  | closeC cid creator h =>
    obtain ⟨_, _, rfl⟩ := close_challenge_ok h
    exact Or.inl rfl

theorem forwardEdge_rank {a b : ChallengeStatus} (h : forwardEdge a b) :
    statusRank a ≤ statusRank b := by
  rcases h with rfl | ⟨rfl, rfl⟩ | ⟨rfl, rfl⟩ | ⟨rfl, rfl⟩ | ⟨rfl, rfl⟩ |
    ⟨rfl, rfl⟩
  · exact Nat.le_refl _
  all_goals decide

theorem statusRank_inj {a b : ChallengeStatus}
    (h : statusRank a = statusRank b) : a = b := by
  cases a <;> cases b <;> revert h <;> decide

theorem forwardEdge_terminal {a b : ChallengeStatus}
    (ha : a = .Settled ∨ a = .Cancelled) (h : forwardEdge a b) : b = a := by
  rcases ha with rfl | rfl <;>
    rcases h with rfl | ⟨h1, _⟩ | ⟨h1, _⟩ | ⟨h1, _⟩ | ⟨h1, _⟩ | ⟨h1, _⟩ <;>
    first | rfl | exact ChallengeStatus.noConfusion h1

theorem steps_rank_le {s t : PState} (h : Relation.ReflTransGen Step s t) :
    statusRank s.challenge.status ≤ statusRank t.challenge.status := by
  induction h with
  | refl => exact Nat.le_refl _
  | tail hst hstep ih =>
    exact le_trans ih (forwardEdge_rank (step_forwardEdge hstep))

/-- C4: every instruction either keeps the status or takes one of the five
forward edges; once `Settled` or `Cancelled` no sequence of instructions
changes the status; and no status is ever revisited: along any two
composable instruction sequences, if the final status equals the initial
one then the status never moved in between. -/
theorem claim4_status_monotone :
    (∀ s s' : PState, Step s s' →
      forwardEdge s.challenge.status s'.challenge.status) ∧
    (∀ s t : PState,
      (s.challenge.status = .Settled ∨ s.challenge.status = .Cancelled) →
      Relation.ReflTransGen Step s t →
      t.challenge.status = s.challenge.status) ∧
    (∀ s t u : PState, Relation.ReflTransGen Step s t →
      Relation.ReflTransGen Step t u →
      u.challenge.status = s.challenge.status →
      t.challenge.status = s.challenge.status) := by
  refine ⟨fun s s' h => step_forwardEdge h, ?_, ?_⟩
  · intro s t hs hsteps
    induction hsteps with
    | refl => rfl
    | tail hst hstep ih =>
      have ha := hs
      rw [← ih] at ha
      have hb := forwardEdge_terminal ha (step_forwardEdge hstep)
      rw [hb, ih]
  · intro s t u h1 h2 hu
    have r1 := steps_rank_le h1
    have r2 := steps_rank_le h2
    rw [hu] at r2
    exact statusRank_inj (Nat.le_antisymm r2 r1)

/-! ### Claim C1: mixed-scenario conservation -/

/-- C1: after a successful `finalize_settlement` on a reachable state with
winners and losers both present, the frozen figures satisfy
`winner_count × bonus_per_winner + remainder = loser_count × stake_amount`
exactly, with `bonus_per_winner` the integer quotient and `remainder` the
modulus of the losers' pooled stake by `winner_count`, and
`forfeited_amount = 0`.  Reachability supplies the vault-accounting bound
`loser_count × stake_amount < 2^64` (every staked token sits in the `u64`
vault), so the unchecked `u64` product does not wrap. -/
theorem claim1_conservation {fac : EscrowFactory} {cid : String}
    {oracle : Nat} {s s' : PState} (hreach : Reachable s)
    (h : finalize_settlement fac cid oracle s = .ok s')
    (hw : 0 < s.challenge.winner_count) (hl : 0 < s.challenge.loser_count) :
    s'.challenge.winner_count * s'.challenge.bonus_per_winner +
      s'.challenge.remainder
      = s'.challenge.loser_count * s'.challenge.stake_amount ∧
    s'.challenge.bonus_per_winner
      = (s'.challenge.loser_count * s'.challenge.stake_amount)
          / s'.challenge.winner_count ∧
    s'.challenge.remainder
      = (s'.challenge.loser_count * s'.challenge.stake_amount)
          % s'.challenge.winner_count ∧
    s'.challenge.forfeited_amount = 0 := by
  have hi := reachable_inv hreach
  obtain ⟨hcid, hst, hor, hsum, hbr⟩ := finalize_settlement_ok h
  obtain ⟨hvv, hlc, hcnt⟩ := hi.funded (Or.inr (Or.inr hst))
  have hls : s.challenge.loser_count * s.challenge.stake_amount < U64M := by
    calc s.challenge.loser_count * s.challenge.stake_amount
        ≤ s.parts.length * s.challenge.stake_amount :=
          Nat.mul_le_mul_right _ (le_trans hlc hcnt)
      _ = s.vault := hvv.symm
      _ < U64M := hi.vault_lt
  rcases hbr with ⟨hw0, _⟩ | ⟨_, hl0, _⟩ | ⟨hwne, hlne, rfl⟩
  · exact absurd hw0 (by omega)
  · exact absurd hl0 (by omega)
  · have hmod : (s.challenge.loser_count * s.challenge.stake_amount) % U64M
        = s.challenge.loser_count * s.challenge.stake_amount :=
      Nat.mod_eq_of_lt hls
    refine ⟨?_, ?_, ?_, rfl⟩
    · simp only [finalize_mixed, hmod]
      exact Nat.div_add_mod _ _
    · simp only [finalize_mixed, hmod]
    · simp only [finalize_mixed, hmod]

/-! ### Claim C5: payout amount and dust distribution -/

/-- C5: every successful winner payout takes exactly
`stake_amount + bonus_per_winner + (1 if remainder_claimed < remainder
else 0)` out of the vault, grants at most one dust unit, and bumps
`remainder_claimed` by exactly the dust unit granted; and on any reachable
`Settled` state where all winner payouts have been claimed
(`payouts_claimed_count = winner_count`), the dust units handed out total
exactly `remainder`. -/
theorem claim5_dust {cid : String} {user : Nat} {s s' : PState}
    (hreach : Reachable s) :
    (claim_payout cid user s = .ok s' →
      s'.vault + (s.challenge.stake_amount + (s.challenge.bonus_per_winner +
        (if s.challenge.remainder_claimed < s.challenge.remainder
         then 1 else 0))) = s.vault ∧
      (if s.challenge.remainder_claimed < s.challenge.remainder
        then (1 : Nat) else 0) ≤ 1 ∧
      s'.challenge.remainder_claimed = s.challenge.remainder_claimed +
        (if s.challenge.remainder_claimed < s.challenge.remainder
         then 1 else 0)) ∧
    (s.challenge.status = .Settled →
      s.challenge.payouts_claimed_count = s.challenge.winner_count →
      s.challenge.remainder_claimed = s.challenge.remainder) := by
  have hi := reachable_inv hreach
  constructor
  · intro h
    have hamt := claim_payout_ok_amount h
    obtain ⟨p, hfp, hcid, hst, hsd, hwn, hpc, hlt, hbr⟩ := claim_payout_ok h
    rcases hbr with ⟨hd, rfl⟩ | ⟨hd, rfl⟩
    · rw [if_pos hd] at hamt ⊢
      refine ⟨?_, by omega, rfl⟩
      simp only [claim_payout_apply]
      omega
    · rw [if_neg (by omega :
        ¬ s.challenge.remainder_claimed < s.challenge.remainder)] at hamt ⊢
      refine ⟨?_, by omega, rfl⟩
      simp only [claim_payout_apply]
      omega
  · intro hst hpcc
    obtain ⟨hrc, hrle⟩ := hi.claims hst
    omega

/-! ### Concrete states: a full lifecycle trace and crafted check states -/

/-- Registry used by the concrete trace. -/
def f0 : EscrowFactory :=
  { authority := 0, treasury := 1, oracle := 2, challenge_count := 0,
    day_length_seconds := 1 }

/-- A small concrete challenge configuration used by crafted check states:
stake 100, 10 days, 80% threshold, start 100, day length 86400. -/
def baseChallenge : ChallengeEscrow :=
  { challenge_id := "c", creator := 3, stake_amount := 100, total_days := 10,
    threshold_bps := 8000, status := .Created, start_ts := 100,
    end_ts := 964100, participant_count := 0, active_participants := 0,
    winner_count := 0, loser_count := 0, bonus_per_winner := 0,
    forfeited_amount := 0, remainder := 0, payouts_claimed_count := 0,
    remainder_claimed := 0 }

/-- Trace: create a 1-day challenge "c" (stake 100, start 100, 1-second
days so `end_ts = 101`). -/
def trace0 : PState := (create_apply "c" 100 1 100 3 f0).2

/-- Trace: user 10 joins at time 50. -/
def trace1 : PState := join_apply 10 trace0

/-- Trace: user 11 joins at time 50. -/
def trace2 : PState := join_apply 11 trace1

/-- Trace: the oracle records user 10's proof at time 100 (auto-start). -/
def trace3 : PState := record_proof_apply 10 trace2

/-- Trace: the oracle ends the challenge at time 102. -/
def trace4 : PState := settle_challenge_apply trace3

/-- Trace: user 10 is classified winner (1 proof ≥ requiredDays 1). -/
def trace5 : PState := settle_participant_win 10 trace4

/-- Trace: user 11 is classified loser (0 proofs). -/
def trace6 : PState := settle_participant_lose 11 trace5

/-- Trace: settlement is finalized (mixed scenario: 1 winner, 1 loser,
bonus 100, remainder 0). -/
def trace7 : PState := finalize_mixed trace6

/-- Trace: user 10 claims the payout of 200 (stake 100 + bonus 100). -/
def trace8 : PState := claim_payout_apply 10 100 0 trace7

/-- Trace: user 10's participant record is closed. -/
def trace9 : PState := close_participant_apply 10 trace8

theorem trace0_inited : Inited trace0 :=
  ⟨0, "c", 100, 1, 100, 3, f0, (create_apply "c" 100 1 100 3 f0).1,
    by decide, by decide, rfl⟩

theorem trace_steps : Relation.ReflTransGen Step trace0 trace6 :=
  Relation.ReflTransGen.head (@Step.join "c" 10 50 trace0 trace1 rfl) <|
  Relation.ReflTransGen.head (@Step.join "c" 11 50 trace1 trace2 rfl) <|
  Relation.ReflTransGen.head (@Step.record f0 "c" 10 2 100 trace2 trace3 rfl) <|
  Relation.ReflTransGen.head (@Step.settleC f0 "c" 2 102 trace3 trace4 rfl) <|
  Relation.ReflTransGen.head (@Step.settleP f0 "c" 10 2 trace4 trace5 rfl) <|
  Relation.ReflTransGen.head (@Step.settleP f0 "c" 11 2 trace5 trace6 rfl)
    Relation.ReflTransGen.refl

theorem trace6_reachable : Reachable trace6 :=
  ⟨trace0, trace0_inited, trace_steps⟩

theorem trace7_reachable : Reachable trace7 :=
  ⟨trace0, trace0_inited,
    trace_steps.tail (@Step.finalize f0 "c" 2 trace6 trace7 rfl)⟩

theorem trace8_reachable : Reachable trace8 :=
  ⟨trace0, trace0_inited,
    (trace_steps.tail (@Step.finalize f0 "c" 2 trace6 trace7 rfl)).tail
      (@Step.payout "c" 10 trace7 trace8 rfl)⟩

/-- A `Created` challenge whose `u32` participant counter sits at
`u32::MAX`: the next join wraps it instead of failing. -/
def wrapJoinState : PState :=
  { challenge := { baseChallenge with participant_count := U32M - 1 }
    parts := []
    vault := 0 }

/-- An `Ended` no-winner challenge with 2 losers staking `2^63` each: the
forfeited pool `2 × 2^63` wraps to 0 in `u64`. -/
def noWinState : PState :=
  { challenge :=
      { baseChallenge with
        status := .Ended
        stake_amount := 2 ^ 63
        participant_count := 2
        loser_count := 2 }
    parts := []
    vault := 0 }

/-- A `Settled` challenge with one unclaimed winner (bonus 7). -/
def pay6 : PState :=
  { challenge :=
      { baseChallenge with
        status := .Settled
        winner_count := 1
        participant_count := 1
        bonus_per_winner := 7 }
    parts := [(10,
      { user := 10, joined := true, stake_deposited := 100, proof_days := 8,
        is_winner := true, is_settled := true, payout_claimed := false,
        refund_claimed := false })]
    vault := 200 }

/-- A `Cancelled` challenge with one joined, unrefunded participant. -/
def ref6 : PState :=
  { challenge :=
      { baseChallenge with
        status := .Cancelled
        participant_count := 1 }
    parts := [(10,
      { user := 10, joined := true, stake_deposited := 100, proof_days := 0,
        is_winner := false, is_settled := false, payout_claimed := false,
        refund_claimed := false })]
    vault := 100 }

/-- A `Settled` no-winner challenge with an unclaimed forfeited pool. -/
def forf6 : PState :=
  { challenge :=
      { baseChallenge with
        status := .Settled
        forfeited_amount := 300
        participant_count := 3
        loser_count := 3 }
    parts := []
    vault := 300 }

/-- An `Ended` challenge with one classified loser, ready to finalize. -/
def fin7 : PState :=
  { challenge :=
      { baseChallenge with
        status := .Ended
        participant_count := 1
        loser_count := 1 }
    parts := []
    vault := 100 }

/-- An `Ended` challenge with one unclassified participant
(`winner_count + loser_count = 1 ≠ 2 = participant_count`). -/
def fin7bad : PState :=
  { challenge :=
      { baseChallenge with
        status := .Ended
        participant_count := 2
        loser_count := 1 }
    parts := []
    vault := 200 }

/-- An `Ended` challenge with one unsettled participant at 8 of 10 proof
days (exactly the 80% threshold). -/
def set8 : PState :=
  { challenge :=
      { baseChallenge with
        status := .Ended
        participant_count := 1 }
    parts := [(10,
      { user := 10, joined := true, stake_deposited := 100, proof_days := 8,
        is_winner := false, is_settled := false, payout_claimed := false,
        refund_claimed := false })]
    vault := 100 }

/-- A participant of a fresh 1-day challenge, no proofs yet. -/
def p9 : Participant :=
  { user := 10, joined := true, stake_deposited := 100, proof_days := 0,
    is_winner := false, is_settled := false, payout_claimed := false,
    refund_claimed := false }

/-- A running 1-day challenge (`end_ts = 200`) with participant `p9`. -/
def rec9 : PState :=
  { challenge :=
      { baseChallenge with
        total_days := 1
        end_ts := 200
        participant_count := 1 }
    parts := [(10, p9)]
    vault := 100 }

/-- A fully paid-out `Settled` challenge that still has one open
participant record. -/
def cls10 : PState :=
  { challenge :=
      { baseChallenge with
        status := .Settled
        winner_count := 1
        participant_count := 1
        payouts_claimed_count := 1
        active_participants := 1 }
    parts := []
    vault := 0 }

/-- A `Cancelled` challenge with no remaining participant records. -/
def cls10b : PState :=
  { challenge := { baseChallenge with status := .Cancelled }
    parts := []
    vault := 0 }

/-- C2 counterexample: with `participant_count` at `u32::MAX`, a join
succeeds and wraps the counter to 0 instead of failing with the dedicated
overflow error — the increment at lib.rs line 206 is not checked
arithmetic. -/
theorem claim2_counterexample :
    join_challenge "c" 7 50 wrapJoinState = .ok (join_apply 7 wrapJoinState) ∧
    (join_apply 7 wrapJoinState).challenge.participant_count = 0 ∧
    wrapJoinState.challenge.participant_count = U32M - 1 :=
  ⟨rfl, by decide, by decide⟩

/-! ### Witnesses -/

/-- C1 witness: the conservation theorem at the concrete reachable
two-participant trace (1 winner, 1 loser, stake 100). -/
theorem claim1_witness :
    trace7.challenge.winner_count * trace7.challenge.bonus_per_winner +
      trace7.challenge.remainder
      = trace7.challenge.loser_count * trace7.challenge.stake_amount ∧
    trace7.challenge.forfeited_amount = 0 := by
  have h := claim1_conservation trace6_reachable
    (show finalize_settlement f0 "c" 2 trace6 = .ok trace7 from rfl)
    (by decide) (by decide)
  exact ⟨h.1, h.2.2.2⟩

/-- C2 witness: the amended theorem exercised at concrete states for every
classified operation — the checked `challenge_count`,
`active_participants` add/sub, `payouts_claimed_count`,
`remainder_claimed` and payout additions, the wrapping
`participant_count`, `winner_count`, losers'-stakes and forfeited-pool
operations, and the capped `proof_days` increment. -/
theorem claim2_witness :
    (create_apply "c" 100 1 100 3 f0).1.challenge_count
      = f0.challenge_count + 1 ∧
    trace1.challenge.active_participants
      = trace0.challenge.active_participants + 1 ∧
    trace1.challenge.participant_count
      = (trace0.challenge.participant_count + 1) % U32M ∧
    (0 < trace8.challenge.active_participants ∧
      trace9.challenge.active_participants
        = trace8.challenge.active_participants - 1) ∧
    trace8.challenge.payouts_claimed_count
      = trace7.challenge.payouts_claimed_count + 1 ∧
    trace8.challenge.remainder_claimed
      = trace7.challenge.remainder_claimed +
        (if trace7.challenge.remainder_claimed < trace7.challenge.remainder
         then 1 else 0) ∧
    (settle_participant_win 10 set8).challenge.winner_count
      = (set8.challenge.winner_count + 1) % U32M ∧
    trace7.challenge.bonus_per_winner
      = ((trace6.challenge.loser_count * trace6.challenge.stake_amount)
          % U64M) / trace6.challenge.winner_count ∧
    (finalize_no_winner noWinState).challenge.forfeited_amount
      = (noWinState.challenge.participant_count *
          noWinState.challenge.stake_amount) % U64M ∧
    findPart 10 (record_proof_apply 10 rec9).parts
      = some { p9 with proof_days := (p9.proof_days + 1) % U32M } := by
  have H := claim2_checked_unchecked f0 "c" 10 10 10 2 3 0 50 150 100 1 100
    f0 (create_apply "c" 100 1 100 3 f0).1 trace0 trace0 trace1 trace8
    trace9 trace7 trace8 trace6 trace7 set8 (settle_participant_win 10 set8)
    rec9 (record_proof_apply 10 rec9)
  have H2 := claim2_checked_unchecked f0 "c" 10 10 10 2 3 0 50 150 100 1 100
    f0 (create_apply "c" 100 1 100 3 f0).1 trace0 trace0 trace1 trace8
    trace9 trace7 trace8 noWinState (finalize_no_winner noWinState) set8
    (settle_participant_win 10 set8) rec9 (record_proof_apply 10 rec9)
  refine ⟨(H.1 rfl).1, (H.2.1 rfl).1, (H.2.1 rfl).2.2, H.2.2.1 rfl,
    (H.2.2.2.1 rfl).1, (H.2.2.2.1 rfl).2.2.1, ?_, ?_, ?_, ?_⟩
  · exact (H.2.2.2.2.1 rfl
      { user := 10, joined := true, stake_deposited := 100, proof_days := 8,
        is_winner := false, is_settled := false, payout_claimed := false,
        refund_claimed := false } rfl).1 (by decide)
  · exact ((H.2.2.2.2.2.1 rfl).2 (by decide) (by decide)).1
  · exact (H2.2.2.2.2.2.1 rfl).1 (by decide)
  · exact (H.2.2.2.2.2.2 rfl p9 rfl).1

/-- C4 witness: a concrete finalize step takes a forward edge; a `Settled`
state stays `Settled` along the empty sequence; the no-revisit clause at a
concrete reflexive pair. -/
theorem claim4_witness :
    forwardEdge trace6.challenge.status trace7.challenge.status ∧
    trace7.challenge.status = trace7.challenge.status ∧
    trace0.challenge.status = trace0.challenge.status := by
  have h := claim4_status_monotone
  refine ⟨h.1 trace6 trace7 (@Step.finalize f0 "c" 2 trace6 trace7 rfl),
    ?_, ?_⟩
  · exact h.2.1 trace7 trace7 (Or.inl (by decide)) Relation.ReflTransGen.refl
  · exact h.2.2 trace0 trace0 trace0 Relation.ReflTransGen.refl
      Relation.ReflTransGen.refl rfl

/-- C5 witness: the concrete winner payout takes exactly 200 out of the
vault, and after all payouts (`payouts_claimed_count = winner_count`) the
dust counter equals the remainder. -/
theorem claim5_witness :
    trace8.vault + (trace7.challenge.stake_amount +
      (trace7.challenge.bonus_per_winner +
        (if trace7.challenge.remainder_claimed < trace7.challenge.remainder
         then 1 else 0))) = trace7.vault ∧
    trace8.challenge.remainder_claimed = trace8.challenge.remainder := by
  have h1 := (claim5_dust trace7_reachable).1
    (show claim_payout "c" 10 trace7 = .ok trace8 from rfl)
  have h2 := (@claim5_dust "c" 10 trace8 trace8 trace8_reachable).2
    (by decide) (by decide)
  exact ⟨h1.1, h2⟩

/-- C6 witness: concrete second attempts after a successful payout, refund,
and forfeiture claim fail with the corresponding errors. -/
theorem claim6_witness :
    claim_payout "c" 10 (claim_payout_apply 10 7 0 pay6)
      = .error .PayoutAlreadyClaimed ∧
    claim_refund "c" 10 (claim_refund_apply 10 100 ref6)
      = .error .AlreadyClaimed ∧
    claim_forfeited_stakes f0 "c" 1 (claim_forfeited_apply forf6)
      = .error .NoForfeitedStakes := by
  have H := claim6_idempotent f0 "c" 10 1 pay6 (claim_payout_apply 10 7 0 pay6)
    ref6 (claim_refund_apply 10 100 ref6) forf6 (claim_forfeited_apply forf6)
  exact ⟨H.1 rfl, H.2.1 rfl, H.2.2 rfl⟩

/-- C7 witness: finalizing a one-loser, no-winner challenge freezes a
forfeited pool of 100 and settles; finalizing with an unclassified
participant fails with `SettlementIncomplete`. -/
theorem claim7_witness :
    (finalize_no_winner fin7).challenge.forfeited_amount = 100 ∧
    (finalize_no_winner fin7).challenge.status = .Settled ∧
    finalize_settlement f0 "c" 2 fin7bad = .error .SettlementIncomplete := by
  have H1 := (claim7_finalize f0 "c" 2 fin7 (finalize_no_winner fin7)
    (by decide) (by decide)).1 rfl
  have H2 := (claim7_finalize f0 "c" 2 fin7bad fin7bad
    (by decide) (by decide)).2 rfl rfl rfl (by decide)
  exact ⟨((H1.2.2.2.2.2 rfl).1).trans (by decide), H1.2.2.2.2.1, H2⟩

/-- C8 witness: settling the 8-of-10-days participant marks a winner,
bumps `winner_count` by one, and a second settlement attempt fails with
`AlreadySettled`. -/
theorem claim8_witness :
    (settle_participant_win 10 set8).challenge.winner_count
      = set8.challenge.winner_count + 1 ∧
    settle_participant f0 "c" 10 2 (settle_participant_win 10 set8)
      = .error .AlreadySettled := by
  have H := claim8_settle_participant f0 "c" 10 2 set8
    (settle_participant_win 10 set8) (by decide) (by decide) rfl
  exact ⟨((H.2.2.1 _ rfl).1 (by decide)).1, H.2.2.2⟩

/-- C9 witness: the first proof flips the concrete 1-day challenge to
`Started` and records `proof_days = 1`; a second proof attempt hits the
`total_days` cap and fails with `MaxProofsReached`. -/
theorem claim9_witness :
    (record_proof_apply 10 rec9).challenge.status = .Started ∧
    findPart 10 (record_proof_apply 10 rec9).parts
      = some { p9 with proof_days := 1 } ∧
    record_proof f0 "c" 10 2 150 (record_proof_apply 10 rec9)
      = .error .MaxProofsReached := by
  have H1 := (claim9_record_proof f0 "c" 10 2 150 rec9
    (record_proof_apply 10 rec9) p9 (by decide)).1 rfl
  have H2 := (claim9_record_proof f0 "c" 10 2 150 (record_proof_apply 10 rec9)
    (record_proof_apply 10 rec9) { p9 with proof_days := 1 } (by decide)).2
    (by rfl) rfl (Or.inr rfl) (by decide) (by decide) rfl rfl (by decide)
  exact ⟨H1.2.1 rfl, H1.1 p9 rfl, H2⟩

/-- C10 witness: a fully paid-out `Settled` challenge with one open
participant record cannot be closed (`ParticipantsRemaining`); a
`Cancelled` challenge closes only with zero active participants. -/
theorem claim10_witness :
    close_challenge "c" 3 cls10 = .error .ParticipantsRemaining ∧
    cls10b.challenge.active_participants = 0 := by
  have H1 := (claim10_close_challenge "c" 3 cls10 cls10).2 rfl rfl rfl
    (by decide) rfl rfl (by decide)
  have H2 := (claim10_close_challenge "c" 3 cls10b cls10b).1 rfl
  exact ⟨H1, H2.1⟩

end Proven
